import Mathlib

/-!
# watermarker: a shallow embedding of `watermarker.go`

The program is an HTTP handler that receives a watermark image and a zip
archive, rebuilds the archive entry by entry (directories, media entries that
go through ffmpeg, everything else copied) and answers with the new archive.

Modelling conventions.

* A Go `string` and a Go `[]byte` are both sequences of bytes; both are
  `List Char` here, a `Char` standing for the byte with the same code.
* Every call that leaves the process (file system, subprocess, temp dir,
  opening the uploaded archive) goes through a record `Sys σ` of operations
  over an arbitrary world state `σ`; each call returns Go's `(value, err)`
  pair and the next world.  The theorems quantify over every `σ` and every
  `Sys σ`, so they hold for any deterministic behaviour of the environment,
  failures included.
* Every such call is appended, with its arguments and its outcome, to a
  trace, so that "is called exactly once" and "is never called" are
  statements about the trace.
* A parsed archive (`zr.File`) and a parsed multipart form are values: each
  entry carries the outcome of `Open()` and the bytes and final error its
  reader delivers.
* `filepath.Join` is the field `join` of the environment: the paths the
  program builds are `join [tdir, name]` and `join [tdir, "out", name]`,
  whatever cleaning `Join` does.
* The archive writer `zw` writes into a buffer in memory; it is a value (the
  entries created so far and the bytes written to each), and the environment
  only decides whether `CreateHeader` and `Write` fail.
* `dbg` only prints diagnostics in debug mode and `Close()` of a reader only
  releases it; neither is modelled.
-/

namespace Watermarker

/-- A Go string, as its bytes. -/
abbrev GoString := List Char

/-- A Go byte slice. -/
abbrev Bytes := List Char

/-- A Go `error` value (non-nil); `Option Err` is a Go `error`, `none` is `nil`. -/
abbrev Err := String

/-! ## strings -/

/-- Go `strings.HasSuffix(s, suffix)`:
`len(s) >= len(suffix) && s[len(s)-len(suffix):] == suffix`. -/
def hasSuffix (s suffix : GoString) : Bool :=
  decide (suffix.length ≤ s.length) && (s.drop (s.length - suffix.length) == suffix)

/-- Go `strings.HasPrefix(s, p)`. -/
def hasPrefix (s p : GoString) : Bool :=
  decide (p.length ≤ s.length) && (s.take p.length == p)

/-- Go `strings.Replace(s, old, new, 1)`: the first occurrence of `old` in `s`
(scanning from the left) is replaced by `new`; without an occurrence `s` is
returned unchanged. -/
def stringsReplace1 (old new : GoString) : GoString → GoString
  | [] => if old = [] then new else []
  | c :: cs =>
    if hasPrefix (c :: cs) old then new ++ (c :: cs).drop old.length
    else c :: stringsReplace1 old new cs

/-- The loop of `isMediaFile` over the suffix table. -/
def isMediaFileLoop (name : GoString) : List GoString → Bool
  | [] => false
  | s :: rest => if hasSuffix name s then true else isMediaFileLoop name rest

/-- The suffix table of `isMediaFile`. -/
def mediaSuffixes : List GoString :=
  [".bmp".toList, ".jpg".toList, ".png".toList, ".mp4".toList]

/-- Models `isMediaFile(name)`. -/
def isMediaFile (name : GoString) : Bool :=
  isMediaFileLoop name mediaSuffixes

/-! ## archive/zip and mime/multipart values -/

/-- An entry of the archive being read (`*zip.File`): its name, the value of
`f.FileInfo().IsDir()`, the error of `f.Open()`, and what the opened reader
delivers: `data`, then `readErr` (`none` is a clean end of file). -/
structure ZipFile where
  name : GoString
  isDir : Bool
  openErr : Option Err
  data : Bytes
  readErr : Option Err
deriving DecidableEq, Repr

/-- The reader returned by `Open()`: the bytes it delivers and the error that
ends the stream (`none` for `io.EOF`). -/
structure ReadCloser where
  data : Bytes
  err : Option Err
deriving DecidableEq, Repr

/-- Models `zip.Store`. -/
def zipStore : Nat := 0

/-- Models `zip.FileHeader`, with the two fields `rezip` sets. -/
structure FileHeader where
  name : GoString
  method : Nat
deriving DecidableEq, Repr

/-- An entry of the archive being written: its header and the payload bytes
written to it so far. -/
structure Entry where
  hdr : FileHeader
  payload : Bytes
deriving DecidableEq, Repr

/-- A `*zip.Writer`: the entries already finished, and the entry created by
the latest `CreateHeader`, to which the writer `out` it returned appends. -/
structure ZipWriter where
  done : List Entry
  last : Option Entry
deriving DecidableEq, Repr

/-- Models `zip.NewWriter(&buf)`. -/
def ZipWriter.new : ZipWriter := ⟨[], none⟩

/-- All entries of the archive under construction, in creation order. -/
def ZipWriter.entries (zw : ZipWriter) : List Entry :=
  zw.done ++ zw.last.toList

/-- Bytes `p` reach the payload of the current entry. -/
def ZipWriter.appendLast (zw : ZipWriter) (p : Bytes) : ZipWriter :=
  { zw with last := zw.last.map (fun e => { e with payload := e.payload ++ p }) }

/-- A file part of a parsed multipart form (`*multipart.FileHeader`): the
file name the client sent, the error of `Open()`, and what the opened part
delivers. -/
structure FormFile where
  filename : GoString
  openErr : Option Err
  data : Bytes
  readErr : Option Err
deriving DecidableEq, Repr

/-- An HTTP request, as far as the handler looks at it: the method, and the
outcome of `r.ParseMultipartForm(1024)`: its error and `r.MultipartForm.File`. -/
structure Request where
  method : GoString
  parseErr : Option Err
  file : GoString → List FormFile

/-- What the handler sends: status code, the headers it sets, the body. -/
structure Response where
  status : Nat
  header : List (GoString × GoString)
  body : Bytes
deriving DecidableEq, Repr

/-! ## the environment -/

/-- The operations the program calls outside itself, over a world state `σ`.
A result is Go's pair of value and error.
`createHeader zw hdr` and `write zw p` tell whether `zw.CreateHeader(hdr)` and
a write of `p` to the current entry fail; a failing write got `n` bytes
through (`some (n, err)`).  `encode zw` is the content of the buffer after
`zw.Close()`. -/
structure Sys (σ : Type) where
  join : List GoString → GoString
  tempDir : GoString → GoString → σ → σ × GoString × Option Err
  removeAll : GoString → σ → σ
  mkdirAll : GoString → Nat → σ → σ × Option Err
  writeFile : GoString → Bytes → Nat → σ → σ × Option Err
  readFile : GoString → σ → σ × Bytes × Option Err
  run : GoString → List GoString → σ → σ × Option Err
  openReader : GoString → σ → σ × List ZipFile × Option Err
  createHeader : ZipWriter → FileHeader → Option Err
  write : ZipWriter → Bytes → Option (Nat × Err)
  encode : ZipWriter → Bytes

/-- One call to the environment, with its arguments and its outcome. -/
inductive Call where
  | tempDir (dir pattern : GoString) (name : GoString) (err : Option Err)
  | removeAll (path : GoString)
  | mkdirAll (path : GoString) (perm : Nat) (err : Option Err)
  | writeFile (path : GoString) (data : Bytes) (perm : Nat) (err : Option Err)
  | readFile (path : GoString) (data : Bytes) (err : Option Err)
  | run (cmd : GoString) (args : List GoString) (err : Option Err)
  | openReader (path : GoString) (err : Option Err)
deriving DecidableEq, Repr

/-- The state threaded through the program: the world and the calls made so
far, oldest first. -/
structure St (σ : Type) where
  world : σ
  trace : List Call

variable {σ : Type}

/-- Calls `ioutil.TempDir(dir, pattern)`. -/
def tempDir (sys : Sys σ) (dir pattern : GoString) (s : St σ) : St σ × GoString × Option Err :=
  let r := sys.tempDir dir pattern s.world
  (⟨r.1, s.trace ++ [Call.tempDir dir pattern r.2.1 r.2.2]⟩, r.2.1, r.2.2)

/-- Calls `os.RemoveAll(path)`; the program drops its error. -/
def removeAll (sys : Sys σ) (path : GoString) (s : St σ) : St σ :=
  ⟨sys.removeAll path s.world, s.trace ++ [Call.removeAll path]⟩

/-- Calls `os.MkdirAll(path, perm)`. -/
def mkdirAll (sys : Sys σ) (path : GoString) (perm : Nat) (s : St σ) : St σ × Option Err :=
  let r := sys.mkdirAll path perm s.world
  (⟨r.1, s.trace ++ [Call.mkdirAll path perm r.2]⟩, r.2)

/-- Calls `ioutil.WriteFile(path, data, perm)`. -/
def writeFile (sys : Sys σ) (path : GoString) (data : Bytes) (perm : Nat) (s : St σ) :
    St σ × Option Err :=
  let r := sys.writeFile path data perm s.world
  (⟨r.1, s.trace ++ [Call.writeFile path data perm r.2]⟩, r.2)

/-- Calls `ioutil.ReadFile(path)`. -/
def readFile (sys : Sys σ) (path : GoString) (s : St σ) : St σ × Bytes × Option Err :=
  let r := sys.readFile path s.world
  (⟨r.1, s.trace ++ [Call.readFile path r.2.1 r.2.2]⟩, r.2.1, r.2.2)

/-- Calls `exec.Command(cmd, args...).Run()`. -/
def run (sys : Sys σ) (cmd : GoString) (args : List GoString) (s : St σ) : St σ × Option Err :=
  let r := sys.run cmd args s.world
  (⟨r.1, s.trace ++ [Call.run cmd args r.2]⟩, r.2)

/-- Calls `zip.OpenReader(path)`. -/
def openReader (sys : Sys σ) (path : GoString) (s : St σ) : St σ × List ZipFile × Option Err :=
  let r := sys.openReader path s.world
  (⟨r.1, s.trace ++ [Call.openReader path r.2.2]⟩, r.2.1, r.2.2)

/-- Models `zw.CreateHeader(hdr)`: on success the previous entry is finished and a
new entry with an empty payload becomes the current one. -/
def createHeader (sys : Sys σ) (zw : ZipWriter) (hdr : FileHeader) : ZipWriter × Option Err :=
  match sys.createHeader zw hdr with
  | some err => (zw, some err)
  | none => (⟨zw.entries, some ⟨hdr, []⟩⟩, none)

/-- Models `out.Write(p)` on the writer of the current entry. -/
def zipWrite (sys : Sys σ) (zw : ZipWriter) (p : Bytes) : ZipWriter × Option Err :=
  match sys.write zw p with
  | some (n, err) => (zw.appendLast (p.take n), some err)
  | none => (zw.appendLast p, none)

/-- Models `io.Copy(out, in)`: what the reader delivers is written to the current
entry; a write error ends the copy, otherwise the reader's final error (if it
is not `io.EOF`) is the result.  Nothing is written when the reader delivers
no byte. -/
def ioCopy (sys : Sys σ) (inp : ReadCloser) (zw : ZipWriter) : ZipWriter × Option Err :=
  if inp.data = [] then (zw, inp.err)
  else
    match zipWrite sys zw inp.data with
    | (zw1, some err) => (zw1, some err)
    | (zw1, none) => (zw1, inp.err)

/-! ## the program -/

/-- The loop of `createDirs` over `[]string{p1, p2}`. -/
def createDirsLoop (sys : Sys σ) : List GoString → St σ → St σ × Option Err
  | [], s => (s, none)
  | p :: ps, s =>
    match mkdirAll sys p 0o755 s with
    | (s1, some err) => (s1, some err)
    | (s1, none) => createDirsLoop sys ps s1

/-- Models `createDirs(dir, subDir)`. -/
def createDirs (sys : Sys σ) (dir subDir : GoString) (s : St σ) : St σ × Option Err :=
  let p1 := sys.join [dir, subDir]
  let p2 := sys.join [dir, "out".toList, subDir]
  createDirsLoop sys [p1, p2] s

/-- The path of the compositor binary. -/
def ffmpeg : GoString := "/usr/local/bin/ffmpeg".toList

/-- The argument vector `addWatermark` builds. -/
def ffmpegArgs (input watermark output : GoString) : List GoString :=
  ["-i".toList, input, "-i".toList, watermark, "-filter_complex".toList,
   "overlay=main_w-overlay_w-10:10".toList, "-codec:a".toList, "copy".toList, output]

/-- Models `addWatermark(watermark, tdir, name, in, out)`; `out` is the writer of the
current entry of `zw`. -/
def addWatermark (sys : Sys σ) (watermark tdir name : GoString) (inp : ReadCloser)
    (zw : ZipWriter) (s : St σ) : St σ × ZipWriter × Option Err :=
  let input := sys.join [tdir, name]
  let output := sys.join [tdir, "out".toList, name]
  match inp.err with
  | some err => (s, zw, some err)
  | none =>
    match writeFile sys input inp.data 0o644 s with
    | (s1, some err) => (s1, zw, some err)
    | (s1, none) =>
      match run sys ffmpeg (ffmpegArgs input watermark output) s1 with
      | (s2, some err) => (s2, zw, some err)
      | (s2, none) =>
        match readFile sys output s2 with
        | (s3, _, some err) => (s3, zw, some err)
        | (s3, p, none) =>
          match zipWrite sys zw p with
          | (zw1, some err) => (s3, zw1, some err)
          | (zw1, none) => (s3, zw1, none)

/-- The body of the loop of `rezip`, for one entry `f` of the source archive. -/
def rezipEntry (sys : Sys σ) (pngPath tdir : GoString) (f : ZipFile) (zw : ZipWriter)
    (s : St σ) : St σ × ZipWriter × Option Err :=
  let name := f.name
  let hdr : FileHeader := { name := name, method := zipStore }
  match f.openErr with
  | some err => (s, zw, some err)
  | none =>
    let inp : ReadCloser := ⟨f.data, f.readErr⟩
    match createHeader sys zw hdr with
    | (zw1, some err) => (s, zw1, some err)
    | (zw1, none) =>
      if f.isDir then
        match createDirs sys tdir name s with
        | (s1, err) => (s1, zw1, err)
      else if isMediaFile name then
        addWatermark sys pngPath tdir name inp zw1 s
      else
        match ioCopy sys inp zw1 with
        | (zw2, err) => (s, zw2, err)

/-- The loop of `rezip` over `zr.File`. -/
def rezipLoop (sys : Sys σ) (pngPath tdir : GoString) :
    List ZipFile → ZipWriter → St σ → St σ × ZipWriter × Option Err
  | [], zw, s => (s, zw, none)
  | f :: fs, zw, s =>
    match rezipEntry sys pngPath tdir f zw s with
    | (s1, zw1, some err) => (s1, zw1, some err)
    | (s1, zw1, none) => rezipLoop sys pngPath tdir fs zw1 s1

/-- Models `rezip(zipPath, pngPath, tdir, zw)`.  The error of the `MkdirAll` of the
`out` directory is dropped, as in the source. -/
def rezip (sys : Sys σ) (zipPath pngPath tdir : GoString) (zw : ZipWriter) (s : St σ) :
    St σ × ZipWriter × Option Err :=
  match openReader sys zipPath s with
  | (s1, _, some err) => (s1, zw, some err)
  | (s1, files, none) =>
    let s2 := (mkdirAll sys (sys.join [tdir, "out".toList]) 0o755 s1).1
    rezipLoop sys pngPath tdir files zw s2

/-- Models `dumpFormFile(hdr, dir, id)`, with results `(name, path, ok)`.  The
results are named in the source, so a bare `return` after `name` and `path`
were assigned returns them with `ok = false`. -/
def dumpFormFile (sys : Sys σ) (hdr : GoString → List FormFile) (dir id : GoString)
    (s : St σ) : St σ × GoString × GoString × Bool :=
  match hdr id with
  | [] => (s, [], [], false)
  | f :: _ =>
    let name := f.filename
    let path := sys.join [dir, name]
    match f.openErr with
    | some _ => (s, name, path, false)
    | none =>
      match f.readErr with
      | some _ => (s, name, path, false)
      | none =>
        match writeFile sys path f.data 0o755 s with
        | (s1, some _) => (s1, name, path, false)
        | (s1, none) => (s1, name, path, true)

/-- Models `http.Error(w, msg, code)`. -/
def httpError (msg : GoString) (code : Nat) : Response :=
  { status := code
    header := [("Content-Type".toList, "text/plain; charset=utf-8".toList),
               ("X-Content-Type-Options".toList, "nosniff".toList)]
    body := msg ++ "\n".toList }

/-- The deferred `os.RemoveAll(tdir)`, which is not registered in debug mode. -/
def cleanup (sys : Sys σ) (debug : Bool) (tdir : GoString) (s : St σ) : St σ :=
  if debug then s else removeAll sys tdir s

/-- The value of the `Content-Disposition` header of a successful response. -/
def contentDisposition (zipName : GoString) : GoString :=
  "attachment; filename=\"".toList
    ++ stringsReplace1 ".zip".toList ".watermark.zip".toList zipName ++ "\"".toList

/-- Models `watermark(w, r)`: the response written to `w`, and the state at return,
after the deferred calls. -/
def watermark (sys : Sys σ) (debug : Bool) (r : Request) (s : St σ) : St σ × Response :=
  match r.parseErr with
  | some _ => (s, httpError "Bad Request".toList 400)
  | none =>
    match tempDir sys [] "watermark_".toList s with
    | (s1, _, some _) => (s1, httpError "Internal Server Error".toList 500)
    | (s1, tdir, none) =>
      match dumpFormFile sys r.file tdir "png".toList s1 with
      | (s2, _, _, false) => (cleanup sys debug tdir s2, httpError "Bad Request".toList 400)
      | (s2, _, pngPath, true) =>
        match dumpFormFile sys r.file tdir "zip".toList s2 with
        | (s3, _, _, false) => (cleanup sys debug tdir s3, httpError "Bad Request".toList 400)
        | (s3, zipName, zipPath, true) =>
          match rezip sys zipPath pngPath tdir ZipWriter.new s3 with
          | (s4, _, some _) =>
            (cleanup sys debug tdir s4, httpError "Internal Server Error".toList 500)
          | (s4, zw, none) =>
            (cleanup sys debug tdir s4,
              { status := 200
                header := [("Content-Disposition".toList, contentDisposition zipName)]
                body := sys.encode zw })

/-- The upload page, the constant `form` of the source, line by line. -/
def formLines : List String :=
  [
   "<!DOCTYPE html>\n",
   "<html>\n",
   "<head>\n",
   "  <meta charset=\"utf-8\">\n",
   "  <title>add watermark</title>\n",
   "  <style>\n",
   "    label, input, button \x7b\n",
   "      margin: 5px auto;\n",
   "      cursor: pointer;\n",
   "    \x7d\n",
   "  </style>\n",
   "</head>\n",
   "<body>\n",
   "  <form action=\"/\" method=\"post\" enctype=\"multipart/form-data\">\n",
   "    <label for=\"zip\">upload zip</label>\n",
   "    <input type=\"file\" accept=\".zip\" id=\"zip\" name=\"zip\" required /><br>\n",
   "    <label for=\"png\">upload png</label>\n",
   "    <input type=\"file\" accept=\"image/png\" id=\"png\" name=\"png\" required /><br>\n",
   "    <button type=\"submit\">go</button>\n",
   "  </form>\n",
   "  <script>\n",
   "  </script>\n",
   "</body>\n",
   "</html>\n"]

/-- The constant `form`. -/
def form : GoString :=
  (String.join formLines).toList

/-- The closure `main` registers on the route `/`: a GET request gets the
upload page (`fmt.Fprintf(w, form)`; `form` holds no formatting verb), every
other request goes to `watermark`. -/
def handler (sys : Sys σ) (debug : Bool) (r : Request) (s : St σ) : St σ × Response :=
  if r.method = "GET".toList then (s, { status := 200, header := [], body := form })
  else watermark sys debug r s

/-! ## a small concrete environment, for examples -/

/-- A toy world: the files on disk and the directories made. -/
structure Disk where
  files : List (GoString × Bytes)
  dirs : List GoString
deriving DecidableEq, Repr

/-- Which operations of the toy environment fail. -/
structure Faults where
  tempDir : Bool
  mkdirAll : Bool
  writeFile : Bool
deriving DecidableEq, Repr

/-- No operation fails. -/
def Faults.none : Faults := ⟨false, false, false⟩

/-- The toy compositor: it fails on a missing input and on the input
`corrupt`, and otherwise leaves `WM+` followed by the input's bytes in the
output file. -/
def toyRun (args : List GoString) (d : Disk) : Disk × Option Err :=
  match args with
  | [_, input, _, _, _, _, _, _, output] =>
    match d.files.lookup input with
    | some p =>
      if p = "corrupt".toList then (d, some "exit status 1")
      else ({ d with files := (output, "WM+".toList ++ p) :: d.files }, none)
    | none => (d, some "exit status 1")
  | _ => (d, some "exit status 1")

/-- The toy environment.  `unzip` reads the bytes of an uploaded archive. -/
def toySys (faults : Faults) (unzip : Bytes → Option (List ZipFile)) : Sys Disk where
  join := fun parts => List.intercalate ['/'] parts
  tempDir := fun _ pattern d =>
    if faults.tempDir then (d, [], some "mkdir: permission denied")
    else (d, "/tmp/".toList ++ pattern ++ "1".toList, none)
  removeAll := fun path d =>
    { files := d.files.filter (fun f => !hasPrefix f.1 path)
      dirs := d.dirs.filter (fun p => !hasPrefix p path) }
  mkdirAll := fun path _ d =>
    if faults.mkdirAll then (d, some "mkdir: permission denied")
    else ({ d with dirs := path :: d.dirs }, none)
  writeFile := fun path data _ d =>
    if faults.writeFile then (d, some "write: no space left on device")
    else ({ d with files := (path, data) :: d.files }, none)
  readFile := fun path d =>
    match d.files.lookup path with
    | some p => (d, p, none)
    | none => (d, [], some "open: no such file or directory")
  run := fun _ args d => toyRun args d
  openReader := fun path d =>
    match d.files.lookup path with
    | some p =>
      match unzip p with
      | some files => (d, files, none)
      | none => (d, [], some "zip: not a valid zip file")
    | none => (d, [], some "open: no such file or directory")
  createHeader := fun _ _ => none
  write := fun _ _ => none
  encode := fun zw =>
    (zw.entries.map (fun e => e.hdr.name ++ "=".toList ++ e.payload ++ ";".toList)).flatten

/-- The empty toy world, before any call. -/
def toyStart : St Disk := ⟨⟨[], []⟩, []⟩

/-- Whether a call starts a subprocess. -/
def Call.isRun : Call → Bool
  | Call.run _ _ _ => true
  | _ => false

/-- The call of the compositor that `addWatermark` makes for the entry `name`,
when it succeeds. -/
def compositorCall (sys : Sys σ) (pngPath tdir name : GoString) : Call :=
  Call.run ffmpeg
    (ffmpegArgs (sys.join [tdir, name]) pngPath (sys.join [tdir, "out".toList, name])) none

/-- The state in which the loop of `rezip` starts: after `zip.OpenReader` and
the `MkdirAll` of the `out` directory. -/
def rezipStart (sys : Sys σ) (zipPath tdir : GoString) (s : St σ) : St σ :=
  (mkdirAll sys (sys.join [tdir, "out".toList]) 0o755 (openReader sys zipPath s).1).1

/-! ## example inputs -/

/-- An archive with a picture, a directory and a text file. -/
def demoFiles : List ZipFile :=
  [⟨"a.png".toList, false, none, "AAA".toList, none⟩,
   ⟨"d/".toList, true, none, [], none⟩,
   ⟨"notes.txt".toList, false, none, "hello".toList, none⟩]

/-- An archive without media names and without directories. -/
def plainFiles : List ZipFile :=
  [⟨"notes.txt".toList, false, none, "hello".toList, none⟩,
   ⟨"scan.PNG".toList, false, none, "pixels".toList, none⟩]

/-- An archive whose first entry the toy compositor rejects. -/
def brokenFiles : List ZipFile :=
  [⟨"bad.png".toList, false, none, "corrupt".toList, none⟩,
   ⟨"d/".toList, true, none, [], none⟩,
   ⟨"b.jpg".toList, false, none, "BBB".toList, none⟩]

/-- An archive whose only entry is a directory with a media name. -/
def dirPngFiles : List ZipFile :=
  [⟨"d.png".toList, true, none, [], none⟩]

/-- The toy archive format: one byte names the archive. -/
def demoUnzip (p : Bytes) : Option (List ZipFile) :=
  if p = "Z".toList then some demoFiles
  else if p = "P".toList then some plainFiles
  else if p = "B".toList then some brokenFiles
  else if p = "D".toList then some dirPngFiles
  else none

/-- The toy environment of the examples, without faults. -/
def demoSys : Sys Disk := toySys Faults.none demoUnzip

/-- A toy world in which the archive with bytes `p` is saved as `/w/in.zip`. -/
def demoState (p : Bytes) : St Disk :=
  ⟨⟨[("/w/in.zip".toList, p)], []⟩, []⟩

/-- A request with a watermark `w.png` and an archive called `zipName` with
bytes `p`. -/
def demoRequest (zipName : GoString) (p : Bytes) : Request :=
  { method := "POST".toList
    parseErr := none
    file := fun id =>
      if id = "png".toList then [⟨"w.png".toList, none, "W".toList, none⟩]
      else if id = "zip".toList then [⟨zipName, none, p, none⟩]
      else [] }

/-! ## the stages of `watermark`, named -/

/-- The call of `ioutil.TempDir` in `watermark`: state, directory, error. -/
def wmTempDir (sys : Sys σ) (s : St σ) : St σ × GoString × Option Err :=
  tempDir sys [] "watermark_".toList s

/-- The call `dumpFormFile(r.MultipartForm.File, tdir, "png")` in `watermark`. -/
def wmPng (sys : Sys σ) (r : Request) (s : St σ) : St σ × GoString × GoString × Bool :=
  dumpFormFile sys r.file (wmTempDir sys s).2.1 "png".toList (wmTempDir sys s).1

/-- The call `dumpFormFile(r.MultipartForm.File, tdir, "zip")` in `watermark`. -/
def wmZip (sys : Sys σ) (r : Request) (s : St σ) : St σ × GoString × GoString × Bool :=
  dumpFormFile sys r.file (wmTempDir sys s).2.1 "zip".toList (wmPng sys r s).1

/-- The call `rezip(zipPath, pngPath, tdir, zw)` in `watermark`. -/
def wmRezip (sys : Sys σ) (r : Request) (s : St σ) : St σ × ZipWriter × Option Err :=
  rezip sys (wmZip sys r s).2.2.1 (wmPng sys r s).2.2.1 (wmTempDir sys s).2.1 ZipWriter.new
    (wmZip sys r s).1

/-- Whether a call is `zip.OpenReader`, the first thing `rezip` does. -/
def Call.isOpenReader : Call → Bool
  | Call.openReader _ _ => true
  | _ => false

/-- A request whose form holds no file at all. -/
def emptyFormRequest : Request :=
  { method := "POST".toList, parseErr := none, file := fun _ => [] }

/-- A request with a watermark `w.png` and no part under `zip`. -/
def noZipRequest : Request :=
  { method := "POST".toList
    parseErr := none
    file := fun id =>
      if id = "png".toList then [⟨"w.png".toList, none, "W".toList, none⟩] else [] }

/-- Whether a call reports an error. -/
def Call.failed : Call → Bool
  | Call.tempDir _ _ _ err => err.isSome
  | Call.removeAll _ => false
  | Call.mkdirAll _ _ err => err.isSome
  | Call.writeFile _ _ _ err => err.isSome
  | Call.readFile _ _ err => err.isSome
  | Call.run _ _ err => err.isSome
  | Call.openReader _ err => err.isSome

/-- The content of `<tdir>/out/<name>` as the compositor left it: what
`ioutil.ReadFile` returns for that path in the world reached from `w` by
writing `data` to `<tdir>/<name>` and running ffmpeg on it. -/
def compositorOutput (sys : Sys σ) (watermark tdir name : GoString) (data : Bytes) (w : σ) :
    Bytes :=
  (sys.readFile (sys.join [tdir, "out".toList, name])
    (sys.run ffmpeg
      (ffmpegArgs (sys.join [tdir, name]) watermark (sys.join [tdir, "out".toList, name]))
      (sys.writeFile (sys.join [tdir, name]) data 0o644 w).1).1).2.1

/-- The toy environment in which every archive on disk holds the entries
`files`. -/
def fixedSys (faults : Faults) (files : List ZipFile) : Sys Disk :=
  toySys faults (fun _ => some files)

/-- The toy environment in which `CreateHeader` always fails. -/
def headerFailSys (files : List ZipFile) : Sys Disk :=
  { fixedSys Faults.none files with
    createHeader := fun _ _ => some "zip: FileHeader.Name too long" }

/-- The toy environment in which a write to the new archive fails before any
byte got through. -/
def writeFailSys (files : List ZipFile) : Sys Disk :=
  { fixedSys Faults.none files with write := fun _ _ => some (0, "zip: write failed") }

/-! ## strings: lemmas -/

theorem hasSuffix_iff (s suffix : GoString) : hasSuffix s suffix = true ↔ suffix <:+ s := by
  unfold hasSuffix
  rw [List.suffix_iff_eq_drop]
  simp only [Bool.and_eq_true, decide_eq_true_eq, beq_iff_eq]
  constructor
  · rintro ⟨_, h⟩
    exact h.symm
  · intro h
    refine ⟨?_, h.symm⟩
    have := congrArg List.length h
    simp only [List.length_drop] at this
    omega

theorem hasPrefix_iff (s p : GoString) : hasPrefix s p = true ↔ p <+: s := by
  unfold hasPrefix
  rw [List.prefix_iff_eq_take]
  simp only [Bool.and_eq_true, decide_eq_true_eq, beq_iff_eq]
  constructor
  · rintro ⟨_, h⟩
    exact h.symm
  · intro h
    refine ⟨?_, h.symm⟩
    have := congrArg List.length h
    simp only [List.length_take] at this
    omega

/-! ## lemmas on the single steps -/

theorem ZipWriter.appendLast_nil (zw : ZipWriter) : zw.appendLast [] = zw := by
  rcases zw with ⟨d, l⟩
  cases l <;> simp [ZipWriter.appendLast]

theorem createHeader_none {sys : Sys σ} {zw zw1 : ZipWriter} {hdr : FileHeader}
    (h : createHeader sys zw hdr = (zw1, none)) :
    zw1 = ⟨zw.entries, some ⟨hdr, []⟩⟩ ∧ sys.createHeader zw hdr = none := by
  unfold createHeader at h
  split at h
  · simp at h
  · next hc =>
    simp only [Prod.mk.injEq, and_true] at h
    exact ⟨h.symm, hc⟩

theorem zipWrite_none {sys : Sys σ} {zw zw1 : ZipWriter} {p : Bytes}
    (h : zipWrite sys zw p = (zw1, none)) : zw1 = zw.appendLast p := by
  unfold zipWrite at h
  split at h
  · simp at h
  · simp only [Prod.mk.injEq, and_true] at h
    exact h.symm

theorem ioCopy_none {sys : Sys σ} {inp : ReadCloser} {zw zw1 : ZipWriter}
    (h : ioCopy sys inp zw = (zw1, none)) : zw1 = zw.appendLast inp.data ∧ inp.err = none := by
  unfold ioCopy at h
  split at h
  · next hd =>
    simp only [Prod.mk.injEq] at h
    rw [hd, ZipWriter.appendLast_nil]
    exact ⟨h.1.symm, h.2⟩
  · split at h
    · simp at h
    · next hw =>
      simp only [Prod.mk.injEq] at h
      rw [← h.1]
      exact ⟨zipWrite_none hw, h.2⟩

theorem createDirs_none {sys : Sys σ} {dir subDir : GoString} {s s1 : St σ}
    (h : createDirs sys dir subDir s = (s1, none)) :
    s1.trace = s.trace ++
      [Call.mkdirAll (sys.join [dir, subDir]) 0o755 none,
       Call.mkdirAll (sys.join [dir, "out".toList, subDir]) 0o755 none] := by
  unfold createDirs at h
  simp only [createDirsLoop] at h
  split at h
  · simp at h
  · next s2 h1 =>
    split at h
    · simp at h
    · next s3 h2 =>
      simp only [Prod.mk.injEq, and_true] at h
      subst h
      simp only [mkdirAll, Prod.mk.injEq] at h1 h2
      rw [← h2.1, ← h1.1]
      simp only [h1.2, h2.2, List.append_assoc, List.singleton_append]
      rw [← h1.1] at h2
      simp only [h2.2]

theorem addWatermark_none {sys : Sys σ} {watermark tdir name : GoString} {inp : ReadCloser}
    {zw zw1 : ZipWriter} {s s1 : St σ}
    (h : addWatermark sys watermark tdir name inp zw s = (s1, zw1, none)) :
    inp.err = none ∧
    s1.trace = s.trace ++
      [Call.writeFile (sys.join [tdir, name]) inp.data 0o644 none,
       Call.run ffmpeg (ffmpegArgs (sys.join [tdir, name]) watermark
         (sys.join [tdir, "out".toList, name])) none,
       Call.readFile (sys.join [tdir, "out".toList, name])
         (readFile sys (sys.join [tdir, "out".toList, name])
           (run sys ffmpeg (ffmpegArgs (sys.join [tdir, name]) watermark
             (sys.join [tdir, "out".toList, name]))
             (writeFile sys (sys.join [tdir, name]) inp.data 0o644 s).1).1).2.1 none] ∧
    zw1 = zw.appendLast
      (readFile sys (sys.join [tdir, "out".toList, name])
        (run sys ffmpeg (ffmpegArgs (sys.join [tdir, name]) watermark
          (sys.join [tdir, "out".toList, name]))
          (writeFile sys (sys.join [tdir, name]) inp.data 0o644 s).1).1).2.1 := by
  unfold addWatermark at h
  simp only at h
  split at h
  · simp at h
  · next he =>
    split at h
    · simp at h
    · next s2 hw =>
      split at h
      · simp at h
      · next s3 hr =>
        split at h
        · simp at h
        · next s4 p hrd =>
          split at h
          · simp at h
          · next zw2 hz =>
            simp only [Prod.mk.injEq, and_true] at h
            obtain ⟨hs, hzw⟩ := h
            subst hs hzw
            have e1 : (writeFile sys (sys.join [tdir, name]) inp.data 0o644 s).1 = s2 := by
              rw [hw]
            rw [e1]
            have e2 : (run sys ffmpeg (ffmpegArgs (sys.join [tdir, name]) watermark
                (sys.join [tdir, "out".toList, name])) s2).1 = s3 := by rw [hr]
            rw [e2, hrd]
            refine ⟨he, ?_, zipWrite_none hz⟩
            simp only [writeFile, Prod.mk.injEq] at hw
            simp only [run, Prod.mk.injEq] at hr
            simp only [readFile, Prod.mk.injEq] at hrd
            rw [← hrd.1, ← hr.1, ← hw.1]
            simp only [List.append_assoc, List.singleton_append, List.cons_append, List.nil_append]
            rw [← hw.1] at hr
            rw [← hr.1] at hrd
            simp only at hr hrd
            rw [hw.2, hr.2, hrd.2.1, hrd.2.2]

/-! ## lemmas on the loop body -/

theorem rezipEntry_none {sys : Sys σ} {pngPath tdir : GoString} {f : ZipFile}
    {zw zw1 : ZipWriter} {s s1 : St σ}
    (h : rezipEntry sys pngPath tdir f zw s = (s1, zw1, none)) :
    f.openErr = none ∧ sys.createHeader zw ⟨f.name, zipStore⟩ = none ∧
    ((f.isDir = true ∧ zw1 = ⟨zw.entries, some ⟨⟨f.name, zipStore⟩, []⟩⟩ ∧
        createDirs sys tdir f.name s = (s1, none)) ∨
     (f.isDir = false ∧ isMediaFile f.name = true ∧
        addWatermark sys pngPath tdir f.name ⟨f.data, f.readErr⟩
          ⟨zw.entries, some ⟨⟨f.name, zipStore⟩, []⟩⟩ s = (s1, zw1, none)) ∨
     (f.isDir = false ∧ isMediaFile f.name = false ∧ f.readErr = none ∧ s1 = s ∧
        zw1 = ⟨zw.entries, some ⟨⟨f.name, zipStore⟩, f.data⟩⟩)) := by
  unfold rezipEntry at h
  simp only at h
  split at h
  · simp at h
  · next ho =>
    split at h
    · simp at h
    · next zw2 hc =>
      obtain ⟨hzw2, hc2⟩ := createHeader_none hc
      subst hzw2
      refine ⟨ho, hc2, ?_⟩
      by_cases hd : f.isDir = true
      · left
        rw [if_pos hd] at h
        simp only [Prod.mk.injEq] at h
        obtain ⟨h1, h2, h3⟩ := h
        refine ⟨hd, h2.symm, ?_⟩
        rw [← h1, ← h3]
      · right
        rw [if_neg hd] at h
        simp only [Bool.not_eq_true] at hd
        by_cases hm : isMediaFile f.name = true
        · left
          rw [if_pos hm] at h
          exact ⟨hd, hm, h⟩
        · right
          rw [if_neg hm] at h
          simp only [Bool.not_eq_true] at hm
          simp only [Prod.mk.injEq] at h
          obtain ⟨h1, h2, h3⟩ := h
          have hcopy : ioCopy sys ⟨f.data, f.readErr⟩
              ⟨zw.entries, some ⟨⟨f.name, zipStore⟩, []⟩⟩ = (zw1, none) := by
            rw [← h2, ← h3]
          obtain ⟨hz, he⟩ := ioCopy_none hcopy
          refine ⟨hd, hm, he, h1.symm, ?_⟩
          rw [hz]
          simp [ZipWriter.appendLast]

/-- A successful pass of the loop body adds exactly one entry, with the name
of the source entry and the store method. -/
theorem rezipEntry_entries {sys : Sys σ} {pngPath tdir : GoString} {f : ZipFile}
    {zw zw1 : ZipWriter} {s s1 : St σ}
    (h : rezipEntry sys pngPath tdir f zw s = (s1, zw1, none)) :
    ∃ pl, zw1 = ⟨zw.entries, some ⟨⟨f.name, zipStore⟩, pl⟩⟩ := by
  obtain ⟨_, _, h | h | h⟩ := rezipEntry_none h
  · exact ⟨[], h.2.1⟩
  · obtain ⟨_, _, hz⟩ := addWatermark_none h.2.2
    rw [hz]
    simp only [ZipWriter.appendLast, Option.map_some', List.nil_append]
    exact ⟨_, rfl⟩
  · exact ⟨f.data, h.2.2.2.2⟩

theorem rezipLoop_cons_none {sys : Sys σ} {pngPath tdir : GoString} {f : ZipFile}
    {fs : List ZipFile} {zw zw' : ZipWriter} {s s' : St σ}
    (h : rezipLoop sys pngPath tdir (f :: fs) zw s = (s', zw', none)) :
    ∃ s1 zw1, rezipEntry sys pngPath tdir f zw s = (s1, zw1, none) ∧
      rezipLoop sys pngPath tdir fs zw1 s1 = (s', zw', none) := by
  rw [rezipLoop] at h
  split at h
  · simp at h
  · next s1 zw1 he => exact ⟨s1, zw1, he, h⟩

theorem rezipLoop_append (sys : Sys σ) (pngPath tdir : GoString) (fs gs : List ZipFile) :
    ∀ (zw : ZipWriter) (s : St σ),
    rezipLoop sys pngPath tdir (fs ++ gs) zw s =
      match rezipLoop sys pngPath tdir fs zw s with
      | (s1, zw1, some err) => (s1, zw1, some err)
      | (s1, zw1, none) => rezipLoop sys pngPath tdir gs zw1 s1 := by
  induction fs with
  | nil => intro zw s; simp [rezipLoop]
  | cons f fs ih =>
    intro zw s
    simp only [List.cons_append, rezipLoop]
    split
    · rfl
    · next s1 zw1 he => exact ih zw1 s1

theorem rezip_eq_loop {sys : Sys σ} {zipPath pngPath tdir : GoString} {zw : ZipWriter}
    {s : St σ} (h : (sys.openReader zipPath s.world).2.2 = none) :
    rezip sys zipPath pngPath tdir zw s =
      rezipLoop sys pngPath tdir (sys.openReader zipPath s.world).2.1 zw
        (rezipStart sys zipPath tdir s) := by
  unfold rezip rezipStart
  split
  · next s1 fs err ho =>
    simp only [openReader, Prod.mk.injEq] at ho
    rw [h] at ho
    simp at ho
  · next s1 files ho =>
    have h1 : (openReader sys zipPath s).1 = s1 := by rw [ho]
    have h2 : (sys.openReader zipPath s.world).2.1 = files := by
      simp only [openReader, Prod.mk.injEq] at ho
      exact ho.2.1
    rw [h1, h2]

theorem rezip_none_open {sys : Sys σ} {zipPath pngPath tdir : GoString} {zw : ZipWriter}
    {s : St σ} (h : (rezip sys zipPath pngPath tdir zw s).2.2 = none) :
    (sys.openReader zipPath s.world).2.2 = none := by
  unfold rezip at h
  split at h
  · simp at h
  · next s1 files ho =>
    simp only [openReader, Prod.mk.injEq] at ho
    exact ho.2.2

/-! ## the whole loop -/

theorem rezipLoop_headers (sys : Sys σ) (pngPath tdir : GoString) (files : List ZipFile) :
    ∀ (zw zw' : ZipWriter) (s s' : St σ),
    rezipLoop sys pngPath tdir files zw s = (s', zw', none) →
    zw'.entries.map Entry.hdr =
      zw.entries.map Entry.hdr ++ files.map (fun f => (⟨f.name, zipStore⟩ : FileHeader)) := by
  induction files with
  | nil =>
    intro zw zw' s s' h
    simp only [rezipLoop, Prod.mk.injEq, and_true] at h
    rw [← h.2]
    simp
  | cons f fs ih =>
    intro zw zw' s s' h
    obtain ⟨s1, zw1, he, hl⟩ := rezipLoop_cons_none h
    obtain ⟨pl, hz⟩ := rezipEntry_entries he
    rw [ih zw1 zw' s1 s' hl, hz]
    simp [ZipWriter.entries]

theorem rezipEntry_copy_ok {sys : Sys σ} {pngPath tdir : GoString} {f : ZipFile}
    (zw : ZipWriter) (s : St σ)
    (hd : f.isDir = false) (hm : isMediaFile f.name = false)
    (ho : f.openErr = none) (hr : f.readErr = none)
    (hc : ∀ zw h, sys.createHeader zw h = none) (hw : ∀ zw p, sys.write zw p = none) :
    rezipEntry sys pngPath tdir f zw s =
      (s, ⟨zw.entries, some ⟨⟨f.name, zipStore⟩, f.data⟩⟩, none) := by
  unfold rezipEntry
  simp only [ho, createHeader, hc, hd, hm, ioCopy, zipWrite, hw, hr]
  by_cases he : f.data = []
  · simp [he]
  · simp [he, ZipWriter.appendLast]

theorem rezipLoop_copy_ok (sys : Sys σ) (pngPath tdir : GoString) (files : List ZipFile)
    (hfiles : ∀ f ∈ files, f.isDir = false ∧ isMediaFile f.name = false)
    (ho : ∀ f ∈ files, f.openErr = none ∧ f.readErr = none)
    (hc : ∀ zw h, sys.createHeader zw h = none) (hw : ∀ zw p, sys.write zw p = none) :
    ∀ (zw : ZipWriter) (s : St σ), (rezipLoop sys pngPath tdir files zw s).2.2 = none := by
  induction files with
  | nil => intro zw s; rfl
  | cons f fs ih =>
    intro zw s
    have h1 := hfiles f (List.mem_cons_self f fs)
    have h2 := ho f (List.mem_cons_self f fs)
    rw [rezipLoop, rezipEntry_copy_ok zw s h1.1 h1.2 h2.1 h2.2 hc hw]
    exact ih (fun g hg => hfiles g (List.mem_cons_of_mem f hg))
      (fun g hg => ho g (List.mem_cons_of_mem f hg)) _ _

theorem rezipLoop_copy (sys : Sys σ) (pngPath tdir : GoString) (files : List ZipFile) :
    ∀ (zw zw' : ZipWriter) (s s' : St σ),
    (∀ f ∈ files, f.isDir = false ∧ isMediaFile f.name = false) →
    rezipLoop sys pngPath tdir files zw s = (s', zw', none) →
    s' = s ∧ zw'.entries =
      zw.entries ++ files.map (fun f => (⟨⟨f.name, zipStore⟩, f.data⟩ : Entry)) := by
  induction files with
  | nil =>
    intro zw zw' s s' _ h
    simp only [rezipLoop, Prod.mk.injEq, and_true] at h
    rw [← h.1, ← h.2]
    simp
  | cons f fs ih =>
    intro zw zw' s s' hfiles h
    obtain ⟨s1, zw1, he, hl⟩ := rezipLoop_cons_none h
    have h1 := hfiles f (List.mem_cons_self f fs)
    obtain ⟨_, _, hx | hx | hx⟩ := rezipEntry_none he
    · rw [h1.1] at hx
      simp at hx
    · rw [h1.2] at hx
      simp at hx
    · obtain ⟨_, _, _, hs, hz⟩ := hx
      obtain ⟨e1, e2⟩ := ih zw1 zw' s1 s' (fun g hg => hfiles g (List.mem_cons_of_mem f hg)) hl
      rw [e1, e2, hs, hz]
      simp [ZipWriter.entries]

/-- C8: when `rezip` returns no error, the headers of the entries it created
in the new archive are, in order, one per entry of the source archive, the
i-th with the name of the i-th source entry and all with the store method
(whatever the entries are: directories, media or other). -/
theorem rezip_headers (sys : Sys σ) (zipPath pngPath tdir : GoString) (zw : ZipWriter)
    (s : St σ) (h : (rezip sys zipPath pngPath tdir zw s).2.2 = none) :
    (rezip sys zipPath pngPath tdir zw s).2.1.entries.map Entry.hdr =
      zw.entries.map Entry.hdr ++
        (sys.openReader zipPath s.world).2.1.map (fun f => (⟨f.name, zipStore⟩ : FileHeader)) := by
  have ho := rezip_none_open h
  rw [rezip_eq_loop ho] at h ⊢
  exact rezipLoop_headers sys pngPath tdir _ zw _ _ _ (Prod.ext rfl (Prod.ext rfl h))

/-- C1: for a source archive without directory entries and without media
names, (a) if opening the archive, opening and reading every entry, creating
a header and writing to the new archive do not fail, `rezip` returns no error,
and (b) whenever `rezip` returns no error, the entries it added to the new
archive are exactly the source entries in order, each with the same name and
with the source payload as its payload. -/
theorem rezip_non_media_identity (sys : Sys σ) (zipPath pngPath tdir : GoString)
    (zw : ZipWriter) (s : St σ)
    (hfiles : ∀ f ∈ (sys.openReader zipPath s.world).2.1,
      f.isDir = false ∧ isMediaFile f.name = false) :
    ((sys.openReader zipPath s.world).2.2 = none →
      (∀ f ∈ (sys.openReader zipPath s.world).2.1, f.openErr = none ∧ f.readErr = none) →
      (∀ zw h, sys.createHeader zw h = none) → (∀ zw p, sys.write zw p = none) →
      (rezip sys zipPath pngPath tdir zw s).2.2 = none) ∧
    ((rezip sys zipPath pngPath tdir zw s).2.2 = none →
      (rezip sys zipPath pngPath tdir zw s).2.1.entries =
        zw.entries ++
          (sys.openReader zipPath s.world).2.1.map
            (fun f => (⟨⟨f.name, zipStore⟩, f.data⟩ : Entry))) := by
  constructor
  · intro ho he hc hw
    rw [rezip_eq_loop ho]
    exact rezipLoop_copy_ok sys pngPath tdir _ hfiles he hc hw _ _
  · intro h
    have ho := rezip_none_open h
    rw [rezip_eq_loop ho] at h ⊢
    exact (rezipLoop_copy sys pngPath tdir _ zw _ _ _ hfiles (Prod.ext rfl (Prod.ext rfl h))).2

theorem rezip_headers_witness :
    (rezip demoSys "/w/in.zip".toList "/w/w.png".toList "/w".toList ZipWriter.new
      (demoState "Z".toList)).2.2 = none ∧
    (rezip demoSys "/w/in.zip".toList "/w/w.png".toList "/w".toList ZipWriter.new
      (demoState "Z".toList)).2.1.entries.map Entry.hdr =
      [⟨"a.png".toList, zipStore⟩, ⟨"d/".toList, zipStore⟩, ⟨"notes.txt".toList, zipStore⟩] :=
  ⟨by decide,
   (rezip_headers demoSys "/w/in.zip".toList "/w/w.png".toList "/w".toList ZipWriter.new
      (demoState "Z".toList) (by decide)).trans (by decide)⟩

theorem rezip_non_media_identity_witness :
    (∀ f ∈ (demoSys.openReader "/w/in.zip".toList (demoState "P".toList).world).2.1,
      f.isDir = false ∧ isMediaFile f.name = false) ∧
    (rezip demoSys "/w/in.zip".toList "/w/w.png".toList "/w".toList ZipWriter.new
      (demoState "P".toList)).2.2 = none ∧
    (rezip demoSys "/w/in.zip".toList "/w/w.png".toList "/w".toList ZipWriter.new
      (demoState "P".toList)).2.1.entries =
      [⟨⟨"notes.txt".toList, zipStore⟩, "hello".toList⟩,
       ⟨⟨"scan.PNG".toList, zipStore⟩, "pixels".toList⟩] :=
  ⟨by decide,
   (rezip_non_media_identity demoSys "/w/in.zip".toList "/w/w.png".toList "/w".toList
      ZipWriter.new (demoState "P".toList) (by decide)).1 (by decide) (by decide)
      (fun _ _ => rfl) (fun _ _ => rfl),
   ((rezip_non_media_identity demoSys "/w/in.zip".toList "/w/w.png".toList "/w".toList
      ZipWriter.new (demoState "P".toList) (by decide)).2 (by decide)).trans (by decide)⟩

/-! ## media names -/

theorem hasSuffix_append (base t u : GoString) (h : u.length ≤ t.length) :
    hasSuffix (base ++ t) u = hasSuffix t u := by
  unfold hasSuffix
  have e : (base ++ t).length - u.length = base.length + (t.length - u.length) := by
    simp only [List.length_append]
    omega
  have hl : decide (u.length ≤ (base ++ t).length) = true := by
    simp only [List.length_append, decide_eq_true_eq]
    omega
  rw [e, hl, decide_eq_true h]
  congr 2
  rw [← List.drop_drop, List.drop_left]

theorem isMediaFile_append (base t : GoString) (h : 4 ≤ t.length) :
    isMediaFile (base ++ t) = isMediaFile t := by
  have h4 : ∀ u ∈ mediaSuffixes, u.length ≤ t.length := by
    intro u hu
    simp only [mediaSuffixes, List.mem_cons, List.mem_singleton, List.not_mem_nil, or_false] at hu
    rcases hu with rfl | rfl | rfl | rfl <;> exact h
  unfold isMediaFile
  generalize mediaSuffixes = l at h4
  induction l with
  | nil => rfl
  | cons u us ih =>
    simp only [isMediaFileLoop]
    rw [hasSuffix_append base t u (h4 u (List.mem_cons_self u us)),
      ih (fun v hv => h4 v (List.mem_cons_of_mem u hv))]

theorem isMediaFileLoop_iff (name : GoString) (l : List GoString) :
    isMediaFileLoop name l = true ↔ ∃ u ∈ l, u <:+ name := by
  induction l with
  | nil => simp [isMediaFileLoop]
  | cons u us ih =>
    simp only [isMediaFileLoop, List.mem_cons, exists_eq_or_imp]
    by_cases hu : hasSuffix name u = true
    · simp only [hu, if_true, true_iff]
      exact Or.inl ((hasSuffix_iff name u).1 hu)
    · have hn : ¬ u <:+ name := fun hx => hu ((hasSuffix_iff name u).2 hx)
      simp only [hu, if_false, Bool.false_eq_true, ih, hn, false_or]

/-! ## the handler -/

theorem watermark_eq (sys : Sys σ) (debug : Bool) (r : Request) (s : St σ) :
    watermark sys debug r s =
      if r.parseErr ≠ none then (s, httpError "Bad Request".toList 400)
      else if (wmTempDir sys s).2.2 ≠ none then
        ((wmTempDir sys s).1, httpError "Internal Server Error".toList 500)
      else if (wmPng sys r s).2.2.2 = false then
        (cleanup sys debug (wmTempDir sys s).2.1 (wmPng sys r s).1,
          httpError "Bad Request".toList 400)
      else if (wmZip sys r s).2.2.2 = false then
        (cleanup sys debug (wmTempDir sys s).2.1 (wmZip sys r s).1,
          httpError "Bad Request".toList 400)
      else if (wmRezip sys r s).2.2 ≠ none then
        (cleanup sys debug (wmTempDir sys s).2.1 (wmRezip sys r s).1,
          httpError "Internal Server Error".toList 500)
      else
        (cleanup sys debug (wmTempDir sys s).2.1 (wmRezip sys r s).1,
          { status := 200
            header := [("Content-Disposition".toList, contentDisposition (wmZip sys r s).2.1)]
            body := sys.encode (wmRezip sys r s).2.1 }) := by
  unfold watermark
  split
  · next e he => simp [he]
  · next he =>
    simp only [he, ne_eq, not_true_eq_false, if_false]
    split
    · next s1 t e ht =>
      have h1 : wmTempDir sys s = (s1, t, some e) := ht
      simp [h1]
    · next s1 tdir ht =>
      have h1 : wmTempDir sys s = (s1, tdir, none) := ht
      simp only [h1, not_true_eq_false, if_false]
      split
      · next s2 n p hp =>
        have h2 : wmPng sys r s = (s2, n, p, false) := by
          unfold wmPng
          rw [h1]
          exact hp
        simp [h2]
      · next s2 n pngPath hp =>
        have h2 : wmPng sys r s = (s2, n, pngPath, true) := by
          unfold wmPng
          rw [h1]
          exact hp
        simp only [h2, Bool.true_eq_false, if_false]
        split
        · next s3 zn zp hz =>
          have h3 : wmZip sys r s = (s3, zn, zp, false) := by
            unfold wmZip
            rw [h1, h2]
            exact hz
          simp [h3]
        · next s3 zipName zipPath hz =>
          have h3 : wmZip sys r s = (s3, zipName, zipPath, true) := by
            unfold wmZip
            rw [h1, h2]
            exact hz
          simp only [h3, Bool.true_eq_false, if_false]
          split
          · next s4 zw e hr =>
            have h4 : wmRezip sys r s = (s4, zw, some e) := by
              unfold wmRezip
              rw [h1, h2, h3]
              exact hr
            simp [h4]
          · next s4 zw hr =>
            have h4 : wmRezip sys r s = (s4, zw, none) := by
              unfold wmRezip
              rw [h1, h2, h3]
              exact hr
            simp [h4]

/-! ## the name of the attachment -/

theorem zip_chars : ".zip".toList = ['.', 'z', 'i', 'p'] := rfl

theorem zip_prefix_overlap (base b : GoString) (hne : base ≠ [])
    (h : ".zip".toList <+: base ++ (".zip".toList ++ b)) : ".zip".toList <:+: base := by
  rw [zip_chars] at h ⊢
  match base, hne with
  | [c1], _ => simp at h
  | [c1, c2], _ => simp at h
  | [c1, c2, c3], _ => simp at h
  | c1 :: c2 :: c3 :: c4 :: rest, _ =>
    simp only [List.cons_append, List.cons_prefix_cons] at h
    obtain ⟨h1, h2, h3, h4, _⟩ := h
    subst h1 h2 h3 h4
    exact ⟨[], rest, rfl⟩

/-- The first occurrence of `.zip` is the one `strings.Replace` with count 1
replaces: `.watermark` goes before it, whatever follows. -/
theorem stringsReplace1_first (a b : GoString) (h : ¬ ".zip".toList <:+: a) :
    stringsReplace1 ".zip".toList ".watermark.zip".toList (a ++ (".zip".toList ++ b)) =
      a ++ (".watermark.zip".toList ++ b) := by
  induction a with
  | nil => simp [zip_chars, stringsReplace1, hasPrefix]
  | cons c cs ih =>
    have hp : hasPrefix (c :: cs ++ (".zip".toList ++ b)) ".zip".toList = false := by
      rw [Bool.eq_false_iff]
      intro hx
      exact h (zip_prefix_overlap (c :: cs) b (List.cons_ne_nil c cs)
        ((hasPrefix_iff _ _).1 hx))
    have hcs : ¬ ".zip".toList <:+: cs := fun hx => h (hx.trans (List.suffix_cons c cs).isInfix)
    rw [List.cons_append, stringsReplace1]
    rw [List.cons_append] at hp
    simp only [hp, Bool.false_eq_true, if_false, List.cons_append, List.cons.injEq, true_and]
    exact ih hcs

/-- When `.zip` does not occur inside `base`, `base.zip` becomes
`base.watermark.zip`. -/
theorem stringsReplace1_zip (base : GoString) (h : ¬ ".zip".toList <:+: base) :
    stringsReplace1 ".zip".toList ".watermark.zip".toList (base ++ ".zip".toList) =
      base ++ ".watermark.zip".toList := by
  have := stringsReplace1_first base [] h
  simpa using this

/-- A name in which `.zip` does not occur is left as it is. -/
theorem stringsReplace1_no_zip (name : GoString) (h : ¬ ".zip".toList <:+: name) :
    stringsReplace1 ".zip".toList ".watermark.zip".toList name = name := by
  induction name with
  | nil => decide
  | cons c cs ih =>
    have hp : hasPrefix (c :: cs) ".zip".toList = false := by
      rw [Bool.eq_false_iff]
      intro hx
      exact h ((hasPrefix_iff _ _).1 hx).isInfix
    have hcs : ¬ ".zip".toList <:+: cs := fun hx => h (hx.trans (List.suffix_cons c cs).isInfix)
    rw [stringsReplace1]
    simp only [hp, Bool.false_eq_true, if_false, List.cons.injEq, true_and]
    exact ih hcs

theorem dumpFormFile_missing (sys : Sys σ) (hdr : GoString → List FormFile)
    (dir id : GoString) (s : St σ) (h : hdr id = []) :
    dumpFormFile sys hdr dir id s = (s, [], [], false) := by
  unfold dumpFormFile
  rw [h]

theorem dumpFormFile_cons (sys : Sys σ) (hdr : GoString → List FormFile)
    (dir id : GoString) (s : St σ) (f : FormFile) (rest : List FormFile)
    (h : hdr id = f :: rest) :
    (dumpFormFile sys hdr dir id s).2.1 = f.filename ∧
    (dumpFormFile sys hdr dir id s).2.2.1 = sys.join [dir, f.filename] ∧
    ((dumpFormFile sys hdr dir id s).2.2.2 = true ↔
      f.openErr = none ∧ f.readErr = none ∧
        (sys.writeFile (sys.join [dir, f.filename]) f.data 0o755 s.world).2 = none) ∧
    ((dumpFormFile sys hdr dir id s).1.trace = s.trace ∨
      (dumpFormFile sys hdr dir id s).1.trace = s.trace ++
        [Call.writeFile (sys.join [dir, f.filename]) f.data 0o755
          (sys.writeFile (sys.join [dir, f.filename]) f.data 0o755 s.world).2]) := by
  unfold dumpFormFile
  rw [h]
  simp only
  cases ho : f.openErr with
  | some e => simp
  | none =>
    cases hr : f.readErr with
    | some e => simp
    | none =>
      simp only [writeFile]
      cases hw : (sys.writeFile (sys.join [dir, f.filename]) f.data 0o755 s.world).2 with
      | some e => simp
      | none => simp

/-- The answer to a request that went through: status 200, one header set by
the handler, whose value is built from the file name of the first part under
`zip` by `strings.Replace(zipName, ".zip", ".watermark.zip", 1)`. -/
theorem watermark_ok_header (sys : Sys σ) (debug : Bool) (r : Request) (s : St σ)
    (h : (watermark sys debug r s).2.status = 200) :
    ∃ f rest, r.file "zip".toList = f :: rest ∧
      (watermark sys debug r s).2.header =
        [("Content-Disposition".toList,
          "attachment; filename=\"".toList ++
            stringsReplace1 ".zip".toList ".watermark.zip".toList f.filename ++
            "\"".toList)] := by
  rw [watermark_eq] at h ⊢
  split_ifs at h ⊢ with h1 h2 h3 h4 h5
  · simp [httpError] at h
  · simp [httpError] at h
  · simp [httpError] at h
  · simp [httpError] at h
  · simp [httpError] at h
  · cases hz : r.file "zip".toList with
    | nil =>
      have := dumpFormFile_missing sys r.file (wmTempDir sys s).2.1 "zip".toList
        (wmPng sys r s).1 hz
      rw [show wmZip sys r s = _ from this] at h4
      simp at h4
    | cons f rest =>
      refine ⟨f, rest, rfl, ?_⟩
      have := (dumpFormFile_cons sys r.file (wmTempDir sys s).2.1 "zip".toList
        (wmPng sys r s).1 f rest hz).1
      rw [show (wmZip sys r s).2.1 = f.filename from this]
      rfl

/-- C3: with an archive uploaded under the name `a.zip.zip`, which is
`a.zip` followed by `.zip`, the request goes through (status 200) and the
`Content-Disposition` header names the attachment `a.watermark.zip.zip`:
`.watermark` went before the first `.zip` of the name, not before its
extension, and the name is not `a.zip.watermark.zip`. -/
theorem watermark_attachment_zip_zip :
    "a.zip.zip".toList = "a.zip".toList ++ ".zip".toList ∧
    (watermark demoSys false (demoRequest "a.zip.zip".toList "P".toList) toyStart).2.status
      = 200 ∧
    (watermark demoSys false (demoRequest "a.zip.zip".toList "P".toList) toyStart).2.header =
      [("Content-Disposition".toList,
        "attachment; filename=\"a.watermark.zip.zip\"".toList)] ∧
    (watermark demoSys false (demoRequest "a.zip.zip".toList "P".toList) toyStart).2.header ≠
      [("Content-Disposition".toList,
        "attachment; filename=\"".toList ++ ("a.zip".toList ++ ".watermark.zip".toList) ++
          "\"".toList)] := by
  decide

/-- For an archive name `base.zip` in which `.zip` occurs only at the end, a
request that went through is answered with the attachment name
`base.watermark.zip`. -/
theorem watermark_attachment_name (sys : Sys σ) (debug : Bool) (r : Request) (s : St σ)
    (f : FormFile) (rest : List FormFile) (base : GoString)
    (hf : r.file "zip".toList = f :: rest) (hb : f.filename = base ++ ".zip".toList)
    (hz : ¬ ".zip".toList <:+: base)
    (h : (watermark sys debug r s).2.status = 200) :
    (watermark sys debug r s).2.header =
      [("Content-Disposition".toList,
        "attachment; filename=\"".toList ++ (base ++ ".watermark.zip".toList) ++
          "\"".toList)] := by
  obtain ⟨g, rest', hg, hh⟩ := watermark_ok_header sys debug r s h
  rw [hf] at hg
  simp only [List.cons.injEq] at hg
  rw [hh, ← hg.1, hb, stringsReplace1_zip base hz]

theorem watermark_attachment_name_witness :
    (watermark demoSys false (demoRequest "photos.zip".toList "Z".toList) toyStart).2.header =
      [("Content-Disposition".toList,
        "attachment; filename=\"photos.watermark.zip\"".toList)] :=
  (watermark_attachment_name demoSys false (demoRequest "photos.zip".toList "Z".toList)
    toyStart ⟨"photos.zip".toList, none, "Z".toList, none⟩ [] "photos".toList
    (by decide) (by decide) (by decide) (by decide)).trans (by decide)

theorem cleanup_trace_filter (sys : Sys σ) (debug : Bool) (tdir : GoString) (s : St σ) :
    (cleanup sys debug tdir s).trace.filter Call.isOpenReader =
      s.trace.filter Call.isOpenReader := by
  unfold cleanup
  cases debug
  · simp [removeAll, Call.isOpenReader]
  · simp

theorem dumpFormFile_trace_filter (sys : Sys σ) (hdr : GoString → List FormFile)
    (dir id : GoString) (s : St σ) :
    (dumpFormFile sys hdr dir id s).1.trace.filter Call.isOpenReader =
      s.trace.filter Call.isOpenReader := by
  cases h : hdr id with
  | nil => rw [dumpFormFile_missing sys hdr dir id s h]
  | cons f rest =>
    rcases (dumpFormFile_cons sys hdr dir id s f rest h).2.2.2 with e | e
    · rw [e]
    · rw [e]
      simp [Call.isOpenReader]

theorem wmTempDir_trace_filter (sys : Sys σ) (s : St σ) :
    (wmTempDir sys s).1.trace.filter Call.isOpenReader = s.trace.filter Call.isOpenReader := by
  simp [wmTempDir, tempDir, Call.isOpenReader]

/-- C5 (amended): when the form has no file under `png`, or none under `zip`,
`dumpFormFile` for a missing field returns `ok = false` and leaves the state
as it was (nothing written); the handler answers 400 `Bad Request` whenever
the body did not parse or the working directory was created, and 500 when
the body parsed and the working directory could not be created; and in every
case no `zip.OpenReader` call is made, that is, `rezip` is not called. -/
theorem watermark_missing_field (sys : Sys σ) (debug : Bool) (r : Request) (s : St σ)
    (hm : r.file "png".toList = [] ∨ r.file "zip".toList = []) :
    (∀ (id dir : GoString) (s0 : St σ), r.file id = [] →
      dumpFormFile sys r.file dir id s0 = (s0, [], [], false)) ∧
    (r.parseErr ≠ none ∨ (wmTempDir sys s).2.2 = none →
      (watermark sys debug r s).2 = httpError "Bad Request".toList 400) ∧
    (r.parseErr = none → (wmTempDir sys s).2.2 ≠ none →
      (watermark sys debug r s).2 = httpError "Internal Server Error".toList 500) ∧
    (watermark sys debug r s).1.trace.filter Call.isOpenReader =
      s.trace.filter Call.isOpenReader := by
  have hdump : (wmPng sys r s).2.2.2 = false ∨ (wmZip sys r s).2.2.2 = false := by
    rcases hm with h | h
    · left
      unfold wmPng
      rw [dumpFormFile_missing sys r.file _ _ _ h]
    · right
      unfold wmZip
      rw [dumpFormFile_missing sys r.file _ _ _ h]
  refine ⟨fun id dir s0 h => dumpFormFile_missing sys r.file dir id s0 h, ?_, ?_, ?_⟩
  · intro h
    rw [watermark_eq]
    split_ifs with h1 h2 h3 h4 h5
    · rfl
    · rcases h with h | h
      · exact absurd h h1
      · exact absurd h h2
    · rfl
    · rfl
    · rcases hdump with h | h
      · exact absurd h h3
      · exact absurd h h4
    · rcases hdump with h | h
      · exact absurd h h3
      · exact absurd h h4
  · intro hp ht
    rw [watermark_eq]
    simp [hp, ht]
  · rw [watermark_eq]
    split_ifs with h1 h2 h3 h4 h5
    · rfl
    · exact wmTempDir_trace_filter sys s
    · rw [cleanup_trace_filter]
      unfold wmPng
      rw [dumpFormFile_trace_filter, wmTempDir_trace_filter]
    · rw [cleanup_trace_filter]
      unfold wmZip
      rw [dumpFormFile_trace_filter]
      unfold wmPng
      rw [dumpFormFile_trace_filter, wmTempDir_trace_filter]
    · rcases hdump with h | h
      · exact absurd h h3
      · exact absurd h h4
    · rcases hdump with h | h
      · exact absurd h h3
      · exact absurd h h4

theorem watermark_missing_field_witness :
    (noZipRequest.file "png".toList = [] ∨ noZipRequest.file "zip".toList = []) ∧
    (watermark demoSys false noZipRequest toyStart).2 = httpError "Bad Request".toList 400 ∧
    (watermark demoSys false noZipRequest toyStart).1.trace.filter Call.isOpenReader = [] :=
  ⟨by decide,
   (watermark_missing_field demoSys false noZipRequest toyStart (by decide)).2.1
     (Or.inr (by decide)),
   (watermark_missing_field demoSys false noZipRequest toyStart (by decide)).2.2.2⟩

/-- C5, as stated, fails: for a request whose form has no file under `png`
and none under `zip`, when the working directory cannot be created the
handler answers 500, not 400. -/
theorem watermark_missing_field_tempdir_500 :
    emptyFormRequest.parseErr = none ∧
    emptyFormRequest.file "png".toList = [] ∧ emptyFormRequest.file "zip".toList = [] ∧
    (watermark (toySys ⟨true, false, false⟩ demoUnzip) false emptyFormRequest toyStart).2.status
      = 500 ∧
    (watermark (toySys ⟨true, false, false⟩ demoUnzip) false emptyFormRequest toyStart).2.status
      ≠ 400 := by
  decide

/-! ## a run without error met no failure -/

theorem rezipEntry_no_failure {sys : Sys σ} {pngPath tdir : GoString} {f : ZipFile}
    {zw zw1 : ZipWriter} {s s1 : St σ}
    (h : rezipEntry sys pngPath tdir f zw s = (s1, zw1, none)) :
    (∃ t, s1.trace = s.trace ++ t ∧ ∀ c ∈ t, c.failed = false) ∧
    f.openErr = none ∧ (f.isDir = false → f.readErr = none) := by
  obtain ⟨ho, _, hx | hx | hx⟩ := rezipEntry_none h
  · obtain ⟨hd, _, hc⟩ := hx
    refine ⟨⟨_, createDirs_none hc, ?_⟩, ho, ?_⟩
    · intro c hc
      simp only [List.mem_cons, List.mem_singleton, List.not_mem_nil, or_false] at hc
      rcases hc with rfl | rfl <;> rfl
    · intro hf
      rw [hd] at hf
      simp at hf
  · obtain ⟨_, _, ha⟩ := hx
    obtain ⟨he, ht, _⟩ := addWatermark_none ha
    refine ⟨⟨_, ht, ?_⟩, ho, fun _ => he⟩
    intro c hc
    simp only [List.mem_cons, List.mem_singleton, List.not_mem_nil, or_false] at hc
    rcases hc with rfl | rfl | rfl <;> rfl
  · obtain ⟨_, _, hr, hs, _⟩ := hx
    exact ⟨⟨[], by rw [hs]; simp, by simp⟩, ho, fun _ => hr⟩

theorem rezipLoop_no_failure (sys : Sys σ) (pngPath tdir : GoString) (files : List ZipFile) :
    ∀ (zw zw' : ZipWriter) (s s' : St σ),
    rezipLoop sys pngPath tdir files zw s = (s', zw', none) →
    (∃ t, s'.trace = s.trace ++ t ∧ ∀ c ∈ t, c.failed = false) ∧
    ∀ f ∈ files, f.openErr = none ∧ (f.isDir = false → f.readErr = none) := by
  induction files with
  | nil =>
    intro zw zw' s s' h
    simp only [rezipLoop, Prod.mk.injEq, and_true] at h
    exact ⟨⟨[], by rw [← h.1]; simp, by simp⟩, by simp⟩
  | cons f fs ih =>
    intro zw zw' s s' h
    obtain ⟨s1, zw1, he, hl⟩ := rezipLoop_cons_none h
    obtain ⟨⟨t1, ht1, hc1⟩, hf⟩ := rezipEntry_no_failure he
    obtain ⟨⟨t2, ht2, hc2⟩, hfs⟩ := ih zw1 zw' s1 s' hl
    refine ⟨⟨t1 ++ t2, by rw [ht2, ht1, List.append_assoc], ?_⟩, ?_⟩
    · intro c hc
      rcases List.mem_append.1 hc with hc | hc
      · exact hc1 c hc
      · exact hc2 c hc
    · intro g hg
      rcases List.mem_cons.1 hg with rfl | hg
      · exact hf
      · exact hfs g hg

/-- When `rezip` returns no error, the archive opened, every entry opened,
every entry that is not a directory was read to its end without error, and
every call made after the `MkdirAll` of the `out` directory reported no
error. -/
theorem rezip_no_failure (sys : Sys σ) (zipPath pngPath tdir : GoString) (zw : ZipWriter)
    (s : St σ) (h : (rezip sys zipPath pngPath tdir zw s).2.2 = none) :
    (sys.openReader zipPath s.world).2.2 = none ∧
    (∃ t, (rezip sys zipPath pngPath tdir zw s).1.trace =
        (rezipStart sys zipPath tdir s).trace ++ t ∧ ∀ c ∈ t, c.failed = false) ∧
    ∀ f ∈ (sys.openReader zipPath s.world).2.1,
      f.openErr = none ∧ (f.isDir = false → f.readErr = none) := by
  have ho := rezip_none_open h
  rw [rezip_eq_loop ho] at h ⊢
  exact ⟨ho, rezipLoop_no_failure sys pngPath tdir _ zw _ _ _ (Prod.ext rfl (Prod.ext rfl h))⟩

theorem dumpFormFile_fails_iff (sys : Sys σ) (hdr : GoString → List FormFile)
    (dir id : GoString) (s : St σ) :
    (dumpFormFile sys hdr dir id s).2.2.2 = false ↔
      hdr id = [] ∨
      ∃ f rest, hdr id = f :: rest ∧
        (f.openErr ≠ none ∨ f.readErr ≠ none ∨
          (sys.writeFile (sys.join [dir, f.filename]) f.data 0o755 s.world).2 ≠ none) := by
  cases h : hdr id with
  | nil =>
    rw [dumpFormFile_missing sys hdr dir id s h]
    simp
  | cons f rest =>
    have hc := (dumpFormFile_cons sys hdr dir id s f rest h).2.2.1
    rw [← Bool.not_eq_true, hc]
    simp only [false_or, List.cons.injEq, reduceCtorEq]
    constructor
    · intro hn
      refine ⟨f, rest, ⟨rfl, rfl⟩, ?_⟩
      by_contra hx
      simp only [not_or, not_not] at hx
      exact hn hx
    · rintro ⟨g, rest', ⟨rfl, rfl⟩, hx⟩ ⟨h1, h2, h3⟩
      rcases hx with hx | hx | hx
      · exact hx h1
      · exact hx h2
      · exact hx h3

/-- C4 (amended): a request that is not a GET goes to `watermark`.  There, a
failure to create the working directory and any error returned by `rezip`
give a 500 answer; `rezip` returns no error only if the archive opened, every
entry opened, every entry that is not a directory was read without error and
every call it made after the `MkdirAll` of `out` (`MkdirAll`, `WriteFile`,
ffmpeg, `ReadFile`) reported no error.  The answer is 400 exactly when the
multipart body did not parse or, with the working directory created,
`dumpFormFile` reported `ok = false` for `png` or for `zip`; and `dumpFormFile`
reports `ok = false` exactly when the field has no file or the first file
under it cannot be opened, cannot be read, or cannot be written into the
working directory. -/
theorem watermark_status (sys : Sys σ) (debug : Bool) (r : Request) (s : St σ) :
    (r.method ≠ "GET".toList → handler sys debug r s = watermark sys debug r s) ∧
    (r.parseErr = none → (wmTempDir sys s).2.2 ≠ none →
      (watermark sys debug r s).2 = httpError "Internal Server Error".toList 500) ∧
    (r.parseErr = none → (wmTempDir sys s).2.2 = none → (wmPng sys r s).2.2.2 = true →
      (wmZip sys r s).2.2.2 = true → (wmRezip sys r s).2.2 ≠ none →
      (watermark sys debug r s).2 = httpError "Internal Server Error".toList 500) ∧
    (∀ (zipPath pngPath tdir : GoString) (zw : ZipWriter) (s0 : St σ),
      (rezip sys zipPath pngPath tdir zw s0).2.2 = none →
      (sys.openReader zipPath s0.world).2.2 = none ∧
      (∃ t, (rezip sys zipPath pngPath tdir zw s0).1.trace =
          (rezipStart sys zipPath tdir s0).trace ++ t ∧ ∀ c ∈ t, c.failed = false) ∧
      ∀ f ∈ (sys.openReader zipPath s0.world).2.1,
        f.openErr = none ∧ (f.isDir = false → f.readErr = none)) ∧
    ((watermark sys debug r s).2.status = 400 ↔
      r.parseErr ≠ none ∨
        ((wmTempDir sys s).2.2 = none ∧
          ((wmPng sys r s).2.2.2 = false ∨ (wmZip sys r s).2.2.2 = false))) ∧
    ((watermark sys debug r s).2.status = 500 ↔
      r.parseErr = none ∧
        ((wmTempDir sys s).2.2 ≠ none ∨
          ((wmPng sys r s).2.2.2 = true ∧ (wmZip sys r s).2.2.2 = true ∧
            (wmRezip sys r s).2.2 ≠ none))) ∧
    (∀ (id dir : GoString) (s0 : St σ),
      (dumpFormFile sys r.file dir id s0).2.2.2 = false ↔
        r.file id = [] ∨
        ∃ f rest, r.file id = f :: rest ∧
          (f.openErr ≠ none ∨ f.readErr ≠ none ∨
            (sys.writeFile (sys.join [dir, f.filename]) f.data 0o755 s0.world).2 ≠ none)) := by
  refine ⟨?_, ?_, ?_, ?_, ?_, ?_, fun id dir s0 => dumpFormFile_fails_iff sys r.file dir id s0⟩
  · intro h
    unfold handler
    rw [if_neg h]
  · intro hp ht
    rw [watermark_eq]
    simp [hp, ht]
  · intro hp ht h1 h2 h3
    rw [watermark_eq]
    simp [hp, ht, h1, h2, h3]
  · intro zipPath pngPath tdir zw s0 h
    exact rezip_no_failure sys zipPath pngPath tdir zw s0 h
  · rw [watermark_eq]
    split_ifs with h1 h2 h3 h4 h5
    · simp [httpError, h1]
    · simp [httpError, h2, not_not.1 h1]
    · simp [httpError, h3, not_not.1 h2]
    · simp [httpError, h4, not_not.1 h2]
    · simp only [ne_eq, not_not, Bool.not_eq_false] at h1 h2 h3 h4
      simp [httpError, h1, h2, h3, h4]
    · simp only [ne_eq, not_not, Bool.not_eq_false] at h1 h2 h3 h4
      simp [h1, h2, h3, h4]
  · rw [watermark_eq]
    split_ifs with h1 h2 h3 h4 h5
    · simp [httpError, h1]
    · simp [httpError, h2, not_not.1 h1]
    · simp only [ne_eq, not_not] at h1 h2
      simp [httpError, h1, h2, h3]
    · simp only [ne_eq, not_not, Bool.not_eq_false] at h1 h2 h3
      simp [httpError, h1, h2, h3, h4]
    · simp only [ne_eq, not_not, Bool.not_eq_false] at h1 h2 h3 h4
      simp [httpError, h1, h2, h3, h4, h5]
    · simp only [ne_eq, not_not, Bool.not_eq_false] at h1 h2 h3 h4 h5
      simp [h1, h2, h3, h4, h5]

/-- C4, as stated, fails: with both parts present and a readable body, when
writing an uploaded part into the working directory fails the handler
answers 400, not 500; so a 400 is not only the answer to an unparsable body
or a missing field. -/
theorem watermark_save_failure_400 :
    (demoRequest "photos.zip".toList "Z".toList).method ≠ "GET".toList ∧
    (demoRequest "photos.zip".toList "Z".toList).parseErr = none ∧
    (demoRequest "photos.zip".toList "Z".toList).file "png".toList ≠ [] ∧
    (demoRequest "photos.zip".toList "Z".toList).file "zip".toList ≠ [] ∧
    (watermark (toySys ⟨false, false, true⟩ demoUnzip) false
      (demoRequest "photos.zip".toList "Z".toList) toyStart).1.trace =
      [Call.tempDir [] "watermark_".toList "/tmp/watermark_1".toList none,
       Call.writeFile "/tmp/watermark_1/w.png".toList "W".toList 0o755
         (some "write: no space left on device"),
       Call.removeAll "/tmp/watermark_1".toList] ∧
    (watermark (toySys ⟨false, false, true⟩ demoUnzip) false
      (demoRequest "photos.zip".toList "Z".toList) toyStart).2 =
      httpError "Bad Request".toList 400 := by
  decide

/-! ## abort on the first failing entry -/

theorem rezipLoop_abort (sys : Sys σ) (pngPath tdir : GoString) (pre post : List ZipFile)
    (f : ZipFile) (zw : ZipWriter) (s : St σ) (err : Err)
    (hpre : (rezipLoop sys pngPath tdir pre zw s).2.2 = none)
    (hf : (rezipEntry sys pngPath tdir f (rezipLoop sys pngPath tdir pre zw s).2.1
      (rezipLoop sys pngPath tdir pre zw s).1).2.2 = some err) :
    rezipLoop sys pngPath tdir (pre ++ f :: post) zw s =
      ((rezipEntry sys pngPath tdir f (rezipLoop sys pngPath tdir pre zw s).2.1
          (rezipLoop sys pngPath tdir pre zw s).1).1,
       (rezipEntry sys pngPath tdir f (rezipLoop sys pngPath tdir pre zw s).2.1
          (rezipLoop sys pngPath tdir pre zw s).1).2.1, some err) := by
  rw [rezipLoop_append]
  generalize rezipLoop sys pngPath tdir pre zw s = p at hpre hf
  obtain ⟨s1, zw1, e1⟩ := p
  simp only at hpre hf
  subst hpre
  simp only [rezipLoop]
  generalize rezipEntry sys pngPath tdir f zw1 s1 = q at hf
  obtain ⟨s2, zw2, e2⟩ := q
  simp only at hf
  subst hf
  rfl

/-- C6: (a) when the archive opened, the entries before `f` were processed
without error and the pass of the loop for `f` ends with the error `err`,
`rezip` returns `err`, and its state and its archive writer are the ones that
pass left: nothing is done for the entries after `f`, whatever they are.
(b) The pass for `f` ends with the error of the step that fails: of opening
the entry, else of creating its header, else of `createDirs` for a directory,
of `addWatermark` for a media name, of `io.Copy` otherwise.  (c) When `rezip`
returns an error to the handler, the answer is `http.Error` with status 500
and the body `Internal Server Error` followed by a newline, in which nothing
of the archive under construction appears. -/
theorem rezip_abort_on_error (sys : Sys σ) :
    (∀ (zipPath pngPath tdir : GoString) (zw : ZipWriter) (s : St σ)
        (pre post : List ZipFile) (f : ZipFile) (err : Err),
      (sys.openReader zipPath s.world).2 = (pre ++ f :: post, none) →
      (rezipLoop sys pngPath tdir pre zw (rezipStart sys zipPath tdir s)).2.2 = none →
      (rezipEntry sys pngPath tdir f
        (rezipLoop sys pngPath tdir pre zw (rezipStart sys zipPath tdir s)).2.1
        (rezipLoop sys pngPath tdir pre zw (rezipStart sys zipPath tdir s)).1).2.2 = some err →
      rezip sys zipPath pngPath tdir zw s =
        ((rezipEntry sys pngPath tdir f
            (rezipLoop sys pngPath tdir pre zw (rezipStart sys zipPath tdir s)).2.1
            (rezipLoop sys pngPath tdir pre zw (rezipStart sys zipPath tdir s)).1).1,
         (rezipEntry sys pngPath tdir f
            (rezipLoop sys pngPath tdir pre zw (rezipStart sys zipPath tdir s)).2.1
            (rezipLoop sys pngPath tdir pre zw (rezipStart sys zipPath tdir s)).1).2.1,
         some err)) ∧
    (∀ (pngPath tdir : GoString) (f : ZipFile) (zw : ZipWriter) (s : St σ),
      (∀ e, f.openErr = some e → rezipEntry sys pngPath tdir f zw s = (s, zw, some e)) ∧
      (∀ e, f.openErr = none → sys.createHeader zw ⟨f.name, zipStore⟩ = some e →
        rezipEntry sys pngPath tdir f zw s = (s, zw, some e)) ∧
      (f.openErr = none → sys.createHeader zw ⟨f.name, zipStore⟩ = none →
        (rezipEntry sys pngPath tdir f zw s).2.2 =
          if f.isDir then (createDirs sys tdir f.name s).2
          else if isMediaFile f.name then
            (addWatermark sys pngPath tdir f.name ⟨f.data, f.readErr⟩
              ⟨zw.entries, some ⟨⟨f.name, zipStore⟩, []⟩⟩ s).2.2
          else (ioCopy sys ⟨f.data, f.readErr⟩
            ⟨zw.entries, some ⟨⟨f.name, zipStore⟩, []⟩⟩).2)) ∧
    (∀ (debug : Bool) (r : Request) (s : St σ),
      r.parseErr = none → (wmTempDir sys s).2.2 = none → (wmPng sys r s).2.2.2 = true →
      (wmZip sys r s).2.2.2 = true → (wmRezip sys r s).2.2 ≠ none →
      (watermark sys debug r s).2 =
        { status := 500
          header := [("Content-Type".toList, "text/plain; charset=utf-8".toList),
                     ("X-Content-Type-Options".toList, "nosniff".toList)]
          body := "Internal Server Error\n".toList }) := by
  refine ⟨?_, ?_, ?_⟩
  · intro zipPath pngPath tdir zw s pre post f err ho hpre hf
    have ho2 : (sys.openReader zipPath s.world).2.2 = none := by rw [ho]
    have ho1 : (sys.openReader zipPath s.world).2.1 = pre ++ f :: post := by rw [ho]
    rw [rezip_eq_loop ho2, ho1]
    exact rezipLoop_abort sys pngPath tdir pre post f zw _ err hpre hf
  · intro pngPath tdir f zw s
    refine ⟨?_, ?_, ?_⟩
    · intro e he
      simp [rezipEntry, he]
    · intro e he hc
      simp [rezipEntry, he, createHeader, hc]
    · intro he hc
      simp only [rezipEntry, he, createHeader, hc]
      split_ifs <;> rfl
  · intro debug r s hp ht h1 h2 h3
    rw [watermark_eq]
    simp only [hp, ht, h1, h2, h3, ne_eq, not_true_eq_false, if_false, Bool.true_eq_false,
      not_false_eq_true, if_true]
    rfl

theorem rezip_abort_on_error_witness :
    (rezip demoSys "/w/in.zip".toList "/w/w.png".toList "/w".toList ZipWriter.new
      (demoState "B".toList)).2.2 = some "exit status 1" ∧
    (rezip demoSys "/w/in.zip".toList "/w/w.png".toList "/w".toList ZipWriter.new
      (demoState "B".toList)).2.1.entries = [⟨⟨"bad.png".toList, zipStore⟩, []⟩] ∧
    (watermark demoSys false (demoRequest "photos.zip".toList "B".toList) toyStart).2 =
      httpError "Internal Server Error".toList 500 :=
  ⟨congrArg (fun p => p.2.2)
    ((rezip_abort_on_error demoSys).1 "/w/in.zip".toList "/w/w.png".toList "/w".toList
      ZipWriter.new (demoState "B".toList) []
      [⟨"d/".toList, true, none, [], none⟩, ⟨"b.jpg".toList, false, none, "BBB".toList, none⟩]
      ⟨"bad.png".toList, false, none, "corrupt".toList, none⟩ "exit status 1"
      (by decide) (by decide) (by decide)),
   by decide,
   (rezip_abort_on_error demoSys).2.2 false (demoRequest "photos.zip".toList "B".toList)
     toyStart (by decide) (by decide) (by decide) (by decide) (by decide)⟩

/-! ## calls of the compositor -/

theorem rezipEntry_runs {sys : Sys σ} {pngPath tdir : GoString} {f : ZipFile}
    {zw zw1 : ZipWriter} {s s1 : St σ}
    (h : rezipEntry sys pngPath tdir f zw s = (s1, zw1, none)) :
    s1.trace.filter Call.isRun = s.trace.filter Call.isRun ++
      ([f].filter (fun f => !f.isDir && isMediaFile f.name)).map
        (fun f => compositorCall sys pngPath tdir f.name) := by
  obtain ⟨_, _, hx | hx | hx⟩ := rezipEntry_none h
  · obtain ⟨hd, _, hc⟩ := hx
    rw [createDirs_none hc]
    simp [hd, Call.isRun]
  · obtain ⟨hd, hm, ha⟩ := hx
    obtain ⟨_, ht, _⟩ := addWatermark_none ha
    rw [ht]
    simp [hd, hm, Call.isRun, compositorCall]
  · obtain ⟨hd, hm, _, hs, _⟩ := hx
    rw [hs]
    simp [hd, hm]

theorem rezipLoop_runs (sys : Sys σ) (pngPath tdir : GoString) (files : List ZipFile) :
    ∀ (zw zw' : ZipWriter) (s s' : St σ),
    rezipLoop sys pngPath tdir files zw s = (s', zw', none) →
    s'.trace.filter Call.isRun = s.trace.filter Call.isRun ++
      (files.filter (fun f => !f.isDir && isMediaFile f.name)).map
        (fun f => compositorCall sys pngPath tdir f.name) := by
  induction files with
  | nil =>
    intro zw zw' s s' h
    simp only [rezipLoop, Prod.mk.injEq, and_true] at h
    rw [← h.1]
    simp
  | cons f fs ih =>
    intro zw zw' s s' h
    obtain ⟨s1, zw1, he, hl⟩ := rezipLoop_cons_none h
    rw [ih zw1 zw' s1 s' hl, rezipEntry_runs he, List.append_assoc, ← List.map_append,
      ← List.filter_append]
    rfl

theorem rezipStart_runs (sys : Sys σ) (zipPath tdir : GoString) (s : St σ) :
    (rezipStart sys zipPath tdir s).trace.filter Call.isRun = s.trace.filter Call.isRun := by
  simp [rezipStart, mkdirAll, openReader, Call.isRun]

theorem cleanup_runs (sys : Sys σ) (debug : Bool) (tdir : GoString) (s : St σ) :
    (cleanup sys debug tdir s).trace.filter Call.isRun = s.trace.filter Call.isRun := by
  unfold cleanup
  cases debug
  · simp [removeAll, Call.isRun]
  · simp

theorem dumpFormFile_runs (sys : Sys σ) (hdr : GoString → List FormFile)
    (dir id : GoString) (s : St σ) :
    (dumpFormFile sys hdr dir id s).1.trace.filter Call.isRun = s.trace.filter Call.isRun := by
  cases h : hdr id with
  | nil => rw [dumpFormFile_missing sys hdr dir id s h]
  | cons f rest =>
    rcases (dumpFormFile_cons sys hdr dir id s f rest h).2.2.2 with e | e
    · rw [e]
    · rw [e]
      simp [Call.isRun]

theorem wmZip_runs (sys : Sys σ) (r : Request) (s : St σ) :
    (wmZip sys r s).1.trace.filter Call.isRun = s.trace.filter Call.isRun := by
  unfold wmZip
  rw [dumpFormFile_runs]
  unfold wmPng
  rw [dumpFormFile_runs]
  simp [wmTempDir, tempDir, Call.isRun]

/-! ## media entries -/

theorem addWatermark_trace {sys : Sys σ} {watermark tdir name : GoString} {inp : ReadCloser}
    {zw zw1 : ZipWriter} {s s1 : St σ}
    (h : addWatermark sys watermark tdir name inp zw s = (s1, zw1, none)) :
    s1.trace = s.trace ++
      [Call.writeFile (sys.join [tdir, name]) inp.data 0o644 none,
       Call.run ffmpeg (ffmpegArgs (sys.join [tdir, name]) watermark
         (sys.join [tdir, "out".toList, name])) none,
       Call.readFile (sys.join [tdir, "out".toList, name])
         (compositorOutput sys watermark tdir name inp.data s.world) none] ∧
    zw1 = zw.appendLast (compositorOutput sys watermark tdir name inp.data s.world) := by
  obtain ⟨_, ht, hz⟩ := addWatermark_none h
  exact ⟨ht, hz⟩

/-- C10: (a) when `addWatermark` returns no error, the calls it made are, in
this order: the entry's bytes, as read, written to `<tdir>/<name>`; ffmpeg run
with that file as first input, the watermark as second input and
`<tdir>/out/<name>` as output; `<tdir>/out/<name>` read back; all three without
error; and what it wrote to `out` is exactly the content read back.  (b) For
an entry of the archive that is not a directory and has a media name, when
the pass of the loop of `rezip` returns no error, the entry added to the new
archive has the source name, the store method, and as payload that content
of `<tdir>/out/<name>`. -/
theorem addWatermark_payload (sys : Sys σ) :
    (∀ (watermark tdir name : GoString) (inp : ReadCloser) (zw : ZipWriter) (s : St σ),
      (addWatermark sys watermark tdir name inp zw s).2.2 = none →
      (addWatermark sys watermark tdir name inp zw s).1.trace = s.trace ++
        [Call.writeFile (sys.join [tdir, name]) inp.data 0o644 none,
         Call.run ffmpeg (ffmpegArgs (sys.join [tdir, name]) watermark
           (sys.join [tdir, "out".toList, name])) none,
         Call.readFile (sys.join [tdir, "out".toList, name])
           (compositorOutput sys watermark tdir name inp.data s.world) none] ∧
      (addWatermark sys watermark tdir name inp zw s).2.1 =
        zw.appendLast (compositorOutput sys watermark tdir name inp.data s.world)) ∧
    (∀ (pngPath tdir : GoString) (f : ZipFile) (zw : ZipWriter) (s : St σ),
      f.isDir = false → isMediaFile f.name = true →
      (rezipEntry sys pngPath tdir f zw s).2.2 = none →
      (rezipEntry sys pngPath tdir f zw s).1.trace = s.trace ++
        [Call.writeFile (sys.join [tdir, f.name]) f.data 0o644 none,
         Call.run ffmpeg (ffmpegArgs (sys.join [tdir, f.name]) pngPath
           (sys.join [tdir, "out".toList, f.name])) none,
         Call.readFile (sys.join [tdir, "out".toList, f.name])
           (compositorOutput sys pngPath tdir f.name f.data s.world) none] ∧
      (rezipEntry sys pngPath tdir f zw s).2.1.entries =
        zw.entries ++
          [⟨⟨f.name, zipStore⟩, compositorOutput sys pngPath tdir f.name f.data s.world⟩]) := by
  constructor
  · intro watermark tdir name inp zw s h
    exact addWatermark_trace (Prod.ext rfl (Prod.ext rfl h))
  · intro pngPath tdir f zw s hd hm h
    have he : rezipEntry sys pngPath tdir f zw s =
        ((rezipEntry sys pngPath tdir f zw s).1, (rezipEntry sys pngPath tdir f zw s).2.1, none) :=
      Prod.ext rfl (Prod.ext rfl h)
    obtain ⟨_, _, hx | hx | hx⟩ := rezipEntry_none he
    · rw [hd] at hx
      simp at hx
    · obtain ⟨ht, hz⟩ := addWatermark_trace hx.2.2
      refine ⟨ht, ?_⟩
      rw [hz]
      simp [ZipWriter.appendLast, ZipWriter.entries]
    · rw [hm] at hx
      simp at hx

theorem addWatermark_payload_witness :
    (rezipEntry demoSys "/w/w.png".toList "/w".toList
      ⟨"a.png".toList, false, none, "AAA".toList, none⟩ ZipWriter.new toyStart).2.2 = none ∧
    (rezipEntry demoSys "/w/w.png".toList "/w".toList
      ⟨"a.png".toList, false, none, "AAA".toList, none⟩ ZipWriter.new toyStart).1.trace =
      [Call.writeFile "/w/a.png".toList "AAA".toList 0o644 none,
       Call.run "/usr/local/bin/ffmpeg".toList
         ["-i".toList, "/w/a.png".toList, "-i".toList, "/w/w.png".toList,
          "-filter_complex".toList, "overlay=main_w-overlay_w-10:10".toList,
          "-codec:a".toList, "copy".toList, "/w/out/a.png".toList] none,
       Call.readFile "/w/out/a.png".toList "WM+AAA".toList none] ∧
    (rezipEntry demoSys "/w/w.png".toList "/w".toList
      ⟨"a.png".toList, false, none, "AAA".toList, none⟩ ZipWriter.new toyStart).2.1.entries =
      [⟨⟨"a.png".toList, zipStore⟩, "WM+AAA".toList⟩] ∧
    (addWatermark demoSys "/w/w.png".toList "/w".toList "a.png".toList
      ⟨"AAA".toList, none⟩ ⟨[], some ⟨⟨"a.png".toList, zipStore⟩, []⟩⟩ toyStart).2.1 =
      ⟨[], some ⟨⟨"a.png".toList, zipStore⟩, "WM+AAA".toList⟩⟩ :=
  ⟨by decide,
   (((addWatermark_payload demoSys).2 "/w/w.png".toList "/w".toList
      ⟨"a.png".toList, false, none, "AAA".toList, none⟩ ZipWriter.new toyStart
      (by decide) (by decide) (by decide)).1).trans (by decide),
   (((addWatermark_payload demoSys).2 "/w/w.png".toList "/w".toList
      ⟨"a.png".toList, false, none, "AAA".toList, none⟩ ZipWriter.new toyStart
      (by decide) (by decide) (by decide)).2).trans (by decide),
   (((addWatermark_payload demoSys).1 "/w/w.png".toList "/w".toList "a.png".toList
      ⟨"AAA".toList, none⟩ ⟨[], some ⟨⟨"a.png".toList, zipStore⟩, []⟩⟩ toyStart
      (by decide)).2).trans (by decide)⟩

/-! ## directory entries -/

theorem rezipLoop_entries (sys : Sys σ) (pngPath tdir : GoString) (files : List ZipFile) :
    ∀ (zw zw' : ZipWriter) (s s' : St σ),
    rezipLoop sys pngPath tdir files zw s = (s', zw', none) →
    ∃ l, zw'.entries = zw.entries ++ l ∧ l.length = files.length := by
  induction files with
  | nil =>
    intro zw zw' s s' h
    simp only [rezipLoop, Prod.mk.injEq, and_true] at h
    exact ⟨[], by rw [← h.2]; simp, rfl⟩
  | cons f fs ih =>
    intro zw zw' s s' h
    obtain ⟨s1, zw1, he, hl⟩ := rezipLoop_cons_none h
    obtain ⟨pl, hz⟩ := rezipEntry_entries he
    obtain ⟨l, h1, h2⟩ := ih zw1 zw' s1 s' hl
    refine ⟨⟨⟨f.name, zipStore⟩, pl⟩ :: l, ?_, by simp [h2]⟩
    rw [h1, hz]
    simp [ZipWriter.entries]

/-! ## further examples -/

theorem watermark_status_witness :
    (watermark demoSys false (demoRequest "photos.zip".toList "B".toList) toyStart).2 =
      httpError "Internal Server Error".toList 500 ∧
    (watermark demoSys false noZipRequest toyStart).2.status = 400 ∧
    (watermark (toySys ⟨true, false, false⟩ demoUnzip) false
      (demoRequest "photos.zip".toList "Z".toList) toyStart).2.status = 500 :=
  ⟨(watermark_status demoSys false (demoRequest "photos.zip".toList "B".toList)
      toyStart).2.2.1 (by decide) (by decide) (by decide) (by decide) (by decide),
   (watermark_status demoSys false noZipRequest toyStart).2.2.2.2.1.2
      (Or.inr ⟨by decide, Or.inr (by decide)⟩),
   (watermark_status (toySys ⟨true, false, false⟩ demoUnzip) false
      (demoRequest "photos.zip".toList "Z".toList) toyStart).2.2.2.2.2.1.2
      ⟨by decide, Or.inl (by decide)⟩⟩

/-! ## one pass of the loop, whatever its outcome -/

theorem rezipEntry_open_err {sys : Sys σ} {pngPath tdir : GoString} {f : ZipFile}
    {zw : ZipWriter} {s : St σ} {e : Err} (he : f.openErr = some e) :
    rezipEntry sys pngPath tdir f zw s = (s, zw, some e) := by
  simp [rezipEntry, he]

theorem rezipEntry_header_err {sys : Sys σ} {pngPath tdir : GoString} {f : ZipFile}
    {zw : ZipWriter} {s : St σ} {e : Err} (he : f.openErr = none)
    (hc : sys.createHeader zw ⟨f.name, zipStore⟩ = some e) :
    rezipEntry sys pngPath tdir f zw s = (s, zw, some e) := by
  simp [rezipEntry, he, createHeader, hc]

theorem rezipEntry_dir {sys : Sys σ} {pngPath tdir : GoString} {f : ZipFile}
    {zw : ZipWriter} {s : St σ} (he : f.openErr = none)
    (hc : sys.createHeader zw ⟨f.name, zipStore⟩ = none) (hd : f.isDir = true) :
    rezipEntry sys pngPath tdir f zw s =
      ((createDirs sys tdir f.name s).1, ⟨zw.entries, some ⟨⟨f.name, zipStore⟩, []⟩⟩,
        (createDirs sys tdir f.name s).2) := by
  simp [rezipEntry, he, createHeader, hc, hd]

theorem rezipEntry_media {sys : Sys σ} {pngPath tdir : GoString} {f : ZipFile}
    {zw : ZipWriter} {s : St σ} (he : f.openErr = none)
    (hc : sys.createHeader zw ⟨f.name, zipStore⟩ = none) (hd : f.isDir = false)
    (hm : isMediaFile f.name = true) :
    rezipEntry sys pngPath tdir f zw s =
      addWatermark sys pngPath tdir f.name ⟨f.data, f.readErr⟩
        ⟨zw.entries, some ⟨⟨f.name, zipStore⟩, []⟩⟩ s := by
  simp [rezipEntry, he, createHeader, hc, hd, hm]

theorem rezipEntry_other {sys : Sys σ} {pngPath tdir : GoString} {f : ZipFile}
    {zw : ZipWriter} {s : St σ} (he : f.openErr = none)
    (hc : sys.createHeader zw ⟨f.name, zipStore⟩ = none) (hd : f.isDir = false)
    (hm : isMediaFile f.name = false) :
    rezipEntry sys pngPath tdir f zw s =
      (s, (ioCopy sys ⟨f.data, f.readErr⟩ ⟨zw.entries, some ⟨⟨f.name, zipStore⟩, []⟩⟩).1,
        (ioCopy sys ⟨f.data, f.readErr⟩ ⟨zw.entries, some ⟨⟨f.name, zipStore⟩, []⟩⟩).2) := by
  simp [rezipEntry, he, createHeader, hc, hd, hm]

theorem createDirs_runs (sys : Sys σ) (dir subDir : GoString) (s : St σ) :
    (createDirs sys dir subDir s).1.trace.filter Call.isRun = s.trace.filter Call.isRun := by
  unfold createDirs
  simp only [createDirsLoop]
  split
  · next s1 e h1 =>
    simp only [mkdirAll, Prod.mk.injEq] at h1
    rw [← h1.1]
    simp [Call.isRun]
  · next s1 h1 =>
    simp only [mkdirAll, Prod.mk.injEq] at h1
    split
    · next s2 e h2 =>
      simp only [mkdirAll, Prod.mk.injEq] at h2
      rw [← h2.1, ← h1.1]
      simp [Call.isRun]
    · next s2 h2 =>
      simp only [mkdirAll, Prod.mk.injEq] at h2
      rw [← h2.1, ← h1.1]
      simp [Call.isRun]

theorem addWatermark_runs (sys : Sys σ) (watermark tdir name : GoString) (inp : ReadCloser)
    (zw : ZipWriter) (s : St σ) :
    (addWatermark sys watermark tdir name inp zw s).1.trace.filter Call.isRun =
      s.trace.filter Call.isRun ++
        if inp.err = none ∧
            (sys.writeFile (sys.join [tdir, name]) inp.data 0o644 s.world).2 = none then
          [Call.run ffmpeg
            (ffmpegArgs (sys.join [tdir, name]) watermark (sys.join [tdir, "out".toList, name]))
            (sys.run ffmpeg
              (ffmpegArgs (sys.join [tdir, name]) watermark
                (sys.join [tdir, "out".toList, name]))
              (sys.writeFile (sys.join [tdir, name]) inp.data 0o644 s.world).1).2]
        else [] := by
  unfold addWatermark
  simp only
  cases he : inp.err with
  | some e => simp
  | none =>
    cases hw : (sys.writeFile (sys.join [tdir, name]) inp.data 0o644 s.world).2 with
    | some e =>
      have : writeFile sys (sys.join [tdir, name]) inp.data 0o644 s =
          (⟨(sys.writeFile (sys.join [tdir, name]) inp.data 0o644 s.world).1,
            s.trace ++ [Call.writeFile (sys.join [tdir, name]) inp.data 0o644 (some e)]⟩,
            some e) := by
        simp [writeFile, hw]
      rw [this]
      simp [Call.isRun]
    | none =>
      have : writeFile sys (sys.join [tdir, name]) inp.data 0o644 s =
          (⟨(sys.writeFile (sys.join [tdir, name]) inp.data 0o644 s.world).1,
            s.trace ++ [Call.writeFile (sys.join [tdir, name]) inp.data 0o644 none]⟩,
            none) := by
        simp [writeFile, hw]
      rw [this]
      simp only [run, readFile, true_and, if_true]
      cases hr : (sys.run ffmpeg
          (ffmpegArgs (sys.join [tdir, name]) watermark (sys.join [tdir, "out".toList, name]))
          (sys.writeFile (sys.join [tdir, name]) inp.data 0o644 s.world).1).2 with
      | some e => simp [Call.isRun]
      | none =>
        simp only
        cases hrd : (sys.readFile (sys.join [tdir, "out".toList, name])
            (sys.run ffmpeg
              (ffmpegArgs (sys.join [tdir, name]) watermark
                (sys.join [tdir, "out".toList, name]))
              (sys.writeFile (sys.join [tdir, name]) inp.data 0o644 s.world).1).1).2.2 with
        | some e => simp [Call.isRun]
        | none =>
          simp only
          split <;> simp [Call.isRun]

theorem rezipEntry_runs_all (sys : Sys σ) (pngPath tdir : GoString) (f : ZipFile)
    (zw : ZipWriter) (s : St σ) :
    (rezipEntry sys pngPath tdir f zw s).1.trace.filter Call.isRun =
      s.trace.filter Call.isRun ++
        if f.isDir = false ∧ isMediaFile f.name = true ∧ f.openErr = none ∧
            sys.createHeader zw ⟨f.name, zipStore⟩ = none ∧ f.readErr = none ∧
            (sys.writeFile (sys.join [tdir, f.name]) f.data 0o644 s.world).2 = none then
          [Call.run ffmpeg
            (ffmpegArgs (sys.join [tdir, f.name]) pngPath
              (sys.join [tdir, "out".toList, f.name]))
            (sys.run ffmpeg
              (ffmpegArgs (sys.join [tdir, f.name]) pngPath
                (sys.join [tdir, "out".toList, f.name]))
              (sys.writeFile (sys.join [tdir, f.name]) f.data 0o644 s.world).1).2]
        else [] := by
  cases he : f.openErr with
  | some e => simp [rezipEntry_open_err he]
  | none =>
    cases hc : sys.createHeader zw ⟨f.name, zipStore⟩ with
    | some e => simp [rezipEntry_header_err he hc]
    | none =>
      cases hd : f.isDir with
      | true => simp [rezipEntry_dir he hc hd, createDirs_runs]
      | false =>
        cases hm : isMediaFile f.name with
        | true =>
          rw [rezipEntry_media he hc hd hm, addWatermark_runs]
          simp
        | false => simp [rezipEntry_other he hc hd hm]

theorem rezipEntry_dir_entries (sys : Sys σ) (pngPath tdir : GoString) (f : ZipFile)
    (zw : ZipWriter) (s : St σ) (hd : f.isDir = true) :
    (rezipEntry sys pngPath tdir f zw s).2.1.entries =
      if f.openErr = none ∧ sys.createHeader zw ⟨f.name, zipStore⟩ = none then
        zw.entries ++ [⟨⟨f.name, zipStore⟩, []⟩]
      else zw.entries := by
  cases he : f.openErr with
  | some e => simp [rezipEntry_open_err he]
  | none =>
    cases hc : sys.createHeader zw ⟨f.name, zipStore⟩ with
    | some e => simp [rezipEntry_header_err he hc]
    | none => simp [rezipEntry_dir he hc hd, ZipWriter.entries]

theorem zipWrite_entries (sys : Sys σ) (d : List Entry) (e : Entry) (p : Bytes) :
    ∃ x, (zipWrite sys ⟨d, some e⟩ p).1 = ⟨d, some ⟨e.hdr, e.payload ++ x⟩⟩ := by
  unfold zipWrite
  split
  · next n err _ => exact ⟨p.take n, rfl⟩
  · exact ⟨p, rfl⟩

theorem ioCopy_entries (sys : Sys σ) (d : List Entry) (e : Entry) (inp : ReadCloser) :
    ∃ x, (ioCopy sys inp ⟨d, some e⟩).1 = ⟨d, some ⟨e.hdr, e.payload ++ x⟩⟩ := by
  unfold ioCopy
  split
  · exact ⟨[], by simp⟩
  · obtain ⟨x, hx⟩ := zipWrite_entries sys d e inp.data
    split
    · next zw1 err h =>
      rw [h] at hx
      exact ⟨x, hx⟩
    · next zw1 h =>
      rw [h] at hx
      exact ⟨x, hx⟩

theorem addWatermark_entries (sys : Sys σ) (watermark tdir name : GoString)
    (inp : ReadCloser) (d : List Entry) (e : Entry) (s : St σ) :
    ∃ x, (addWatermark sys watermark tdir name inp ⟨d, some e⟩ s).2.1 =
      ⟨d, some ⟨e.hdr, e.payload ++ x⟩⟩ := by
  unfold addWatermark
  simp only
  split
  · exact ⟨[], by simp⟩
  · split
    · exact ⟨[], by simp⟩
    · split
      · exact ⟨[], by simp⟩
      · split
        · exact ⟨[], by simp⟩
        · next s3 p _ =>
          obtain ⟨x, hx⟩ := zipWrite_entries sys d e p
          split
          · next zw1 err h =>
            rw [h] at hx
            exact ⟨x, hx⟩
          · next zw1 h =>
            rw [h] at hx
            exact ⟨x, hx⟩

/-- Whatever its outcome, a pass of the loop leaves the entries created before
it as they were and adds at most one entry, named after the source entry. -/
theorem rezipEntry_entries_any (sys : Sys σ) (pngPath tdir : GoString) (f : ZipFile)
    (zw : ZipWriter) (s : St σ) :
    ∃ l, (rezipEntry sys pngPath tdir f zw s).2.1.entries = zw.entries ++ l := by
  cases he : f.openErr with
  | some e => exact ⟨[], by simp [rezipEntry_open_err he]⟩
  | none =>
    cases hc : sys.createHeader zw ⟨f.name, zipStore⟩ with
    | some e => exact ⟨[], by simp [rezipEntry_header_err he hc]⟩
    | none =>
      cases hd : f.isDir with
      | true => exact ⟨_, by rw [rezipEntry_dir he hc hd]; rfl⟩
      | false =>
        cases hm : isMediaFile f.name with
        | true =>
          obtain ⟨x, hx⟩ := addWatermark_entries sys pngPath tdir f.name ⟨f.data, f.readErr⟩
            zw.entries ⟨⟨f.name, zipStore⟩, []⟩ s
          exact ⟨_, by rw [rezipEntry_media he hc hd hm, hx]; rfl⟩
        | false =>
          obtain ⟨x, hx⟩ := ioCopy_entries sys zw.entries ⟨⟨f.name, zipStore⟩, []⟩
            ⟨f.data, f.readErr⟩
          exact ⟨_, by rw [rezipEntry_other he hc hd hm]; simp only; rw [hx]; rfl⟩

theorem rezipLoop_entries_any (sys : Sys σ) (pngPath tdir : GoString) (files : List ZipFile) :
    ∀ (zw : ZipWriter) (s : St σ),
    ∃ l, (rezipLoop sys pngPath tdir files zw s).2.1.entries = zw.entries ++ l := by
  induction files with
  | nil => intro zw s; exact ⟨[], by simp [rezipLoop]⟩
  | cons f fs ih =>
    intro zw s
    obtain ⟨l1, h1⟩ := rezipEntry_entries_any sys pngPath tdir f zw s
    rw [rezipLoop]
    rcases hq : rezipEntry sys pngPath tdir f zw s with ⟨s1, zw1, e1⟩
    rw [hq] at h1
    cases e1 with
    | some e => exact ⟨l1, h1⟩
    | none =>
      obtain ⟨l2, h2⟩ := ih zw1 s1
      exact ⟨l1 ++ l2, by simp only; rw [h2, h1, List.append_assoc]⟩

theorem rezipLoop_snoc (sys : Sys σ) (pngPath tdir : GoString) (pre : List ZipFile)
    (f : ZipFile) (zw : ZipWriter) (s : St σ)
    (hpre : (rezipLoop sys pngPath tdir pre zw s).2.2 = none) :
    rezipLoop sys pngPath tdir (pre ++ [f]) zw s =
      rezipEntry sys pngPath tdir f (rezipLoop sys pngPath tdir pre zw s).2.1
        (rezipLoop sys pngPath tdir pre zw s).1 := by
  rw [rezipLoop_append]
  rcases hp : rezipLoop sys pngPath tdir pre zw s with ⟨s1, zw1, e1⟩
  rw [hp] at hpre
  simp only at hpre
  subst hpre
  simp only [rezipLoop]
  rcases hq : rezipEntry sys pngPath tdir f zw1 s1 with ⟨s2, zw2, e2⟩
  cases e2 <;> rfl

theorem rezipLoop_after (sys : Sys σ) (pngPath tdir : GoString) (pre post : List ZipFile)
    (f : ZipFile) (zw : ZipWriter) (s : St σ)
    (hpre : (rezipLoop sys pngPath tdir pre zw s).2.2 = none) :
    rezipLoop sys pngPath tdir (pre ++ f :: post) zw s =
      if (rezipEntry sys pngPath tdir f (rezipLoop sys pngPath tdir pre zw s).2.1
          (rezipLoop sys pngPath tdir pre zw s).1).2.2 = none then
        rezipLoop sys pngPath tdir post
          (rezipEntry sys pngPath tdir f (rezipLoop sys pngPath tdir pre zw s).2.1
            (rezipLoop sys pngPath tdir pre zw s).1).2.1
          (rezipEntry sys pngPath tdir f (rezipLoop sys pngPath tdir pre zw s).2.1
            (rezipLoop sys pngPath tdir pre zw s).1).1
      else
        rezipEntry sys pngPath tdir f (rezipLoop sys pngPath tdir pre zw s).2.1
          (rezipLoop sys pngPath tdir pre zw s).1 := by
  rw [rezipLoop_append]
  rcases hp : rezipLoop sys pngPath tdir pre zw s with ⟨s1, zw1, e1⟩
  rw [hp] at hpre
  simp only at hpre
  subst hpre
  simp only [rezipLoop]
  rcases hq : rezipEntry sys pngPath tdir f zw1 s1 with ⟨s2, zw2, e2⟩
  cases e2 <;> simp

/-! ## C2: which entries reach the compositor -/

theorem wmPng_saved (sys : Sys σ) (r : Request) (s : St σ)
    (h : (wmPng sys r s).2.2.2 = true) :
    ∃ png rest, r.file "png".toList = png :: rest ∧
      (wmPng sys r s).2.2.1 = sys.join [(wmTempDir sys s).2.1, png.filename] ∧
      (sys.writeFile (sys.join [(wmTempDir sys s).2.1, png.filename]) png.data 0o755
        (wmTempDir sys s).1.world).2 = none := by
  cases hp : r.file "png".toList with
  | nil =>
    have := dumpFormFile_missing sys r.file (wmTempDir sys s).2.1 "png".toList
      (wmTempDir sys s).1 hp
    rw [show wmPng sys r s = _ from this] at h
    simp at h
  | cons png rest =>
    have hc := dumpFormFile_cons sys r.file (wmTempDir sys s).2.1 "png".toList
      (wmTempDir sys s).1 png rest hp
    exact ⟨png, rest, rfl, hc.2.1, (hc.2.2.1.1 h).2.2⟩

/-- C2 (amended): (a) one pass of the loop of `rezip`, from any state and
whatever its outcome, makes exactly one subprocess call, ffmpeg with
`<tdir>/<name>` as first input, `pngPath` as overlay input and
`<tdir>/out/<name>` as output, when the entry is not a directory, its name is
a media name, and opening it, creating its header, reading it and writing it
to `<tdir>/<name>` succeed; in every other case it makes none.  When such a
pass returns no error, that one call reported no error.  (b) When the archive
opened as `pre`, `f`, `post` and the entries of `pre` were processed without
error, the subprocess calls made before the loop reaches `f` are, in order,
one successful ffmpeg call for each entry of `pre` that is not a directory
and has a media name; the pass for `f` starts in that state; and after it
`rezip` goes on with `post` if the pass returned no error and stops there
otherwise.  (c) When the handler has saved the part under `png`, the
`pngPath` it passes to `rezip` is the path `<tdir>/<filename>` into which it
wrote that part, and the subprocess calls of the request are those of that
call of `rezip`. -/
theorem rezip_compositor_calls (sys : Sys σ) :
    (∀ (pngPath tdir : GoString) (f : ZipFile) (zw : ZipWriter) (s : St σ),
      (rezipEntry sys pngPath tdir f zw s).1.trace.filter Call.isRun =
        s.trace.filter Call.isRun ++
          (if f.isDir = false ∧ isMediaFile f.name = true ∧ f.openErr = none ∧
              sys.createHeader zw ⟨f.name, zipStore⟩ = none ∧ f.readErr = none ∧
              (sys.writeFile (sys.join [tdir, f.name]) f.data 0o644 s.world).2 = none then
            [Call.run ffmpeg
              (ffmpegArgs (sys.join [tdir, f.name]) pngPath
                (sys.join [tdir, "out".toList, f.name]))
              (sys.run ffmpeg
                (ffmpegArgs (sys.join [tdir, f.name]) pngPath
                  (sys.join [tdir, "out".toList, f.name]))
                (sys.writeFile (sys.join [tdir, f.name]) f.data 0o644 s.world).1).2]
          else []) ∧
      (f.isDir = false → isMediaFile f.name = true →
        (rezipEntry sys pngPath tdir f zw s).2.2 = none →
        (rezipEntry sys pngPath tdir f zw s).1.trace.filter Call.isRun =
          s.trace.filter Call.isRun ++
            [Call.run ffmpeg
              (ffmpegArgs (sys.join [tdir, f.name]) pngPath
                (sys.join [tdir, "out".toList, f.name])) none])) ∧
    (∀ (zipPath pngPath tdir : GoString) (zw : ZipWriter) (s : St σ)
        (pre post : List ZipFile) (f : ZipFile),
      (sys.openReader zipPath s.world).2 = (pre ++ f :: post, none) →
      (rezipLoop sys pngPath tdir pre zw (rezipStart sys zipPath tdir s)).2.2 = none →
      (rezipLoop sys pngPath tdir pre zw (rezipStart sys zipPath tdir s)).1.trace.filter
          Call.isRun =
        s.trace.filter Call.isRun ++
          (pre.filter (fun g => !g.isDir && isMediaFile g.name)).map
            (fun g => Call.run ffmpeg
              (ffmpegArgs (sys.join [tdir, g.name]) pngPath
                (sys.join [tdir, "out".toList, g.name])) none) ∧
      rezipLoop sys pngPath tdir (pre ++ [f]) zw (rezipStart sys zipPath tdir s) =
        rezipEntry sys pngPath tdir f
          (rezipLoop sys pngPath tdir pre zw (rezipStart sys zipPath tdir s)).2.1
          (rezipLoop sys pngPath tdir pre zw (rezipStart sys zipPath tdir s)).1 ∧
      rezip sys zipPath pngPath tdir zw s =
        if (rezipLoop sys pngPath tdir (pre ++ [f]) zw
            (rezipStart sys zipPath tdir s)).2.2 = none then
          rezipLoop sys pngPath tdir post
            (rezipLoop sys pngPath tdir (pre ++ [f]) zw (rezipStart sys zipPath tdir s)).2.1
            (rezipLoop sys pngPath tdir (pre ++ [f]) zw (rezipStart sys zipPath tdir s)).1
        else rezipLoop sys pngPath tdir (pre ++ [f]) zw (rezipStart sys zipPath tdir s)) ∧
    (∀ (debug : Bool) (r : Request) (s : St σ),
      (wmPng sys r s).2.2.2 = true →
      ∃ png rest, r.file "png".toList = png :: rest ∧
        (sys.writeFile (sys.join [(wmTempDir sys s).2.1, png.filename]) png.data 0o755
          (wmTempDir sys s).1.world).2 = none ∧
        wmRezip sys r s =
          rezip sys (wmZip sys r s).2.2.1 (sys.join [(wmTempDir sys s).2.1, png.filename])
            (wmTempDir sys s).2.1 ZipWriter.new (wmZip sys r s).1 ∧
        (wmZip sys r s).1.trace.filter Call.isRun = s.trace.filter Call.isRun ∧
        (r.parseErr = none → (wmTempDir sys s).2.2 = none → (wmZip sys r s).2.2.2 = true →
          (watermark sys debug r s).1.trace.filter Call.isRun =
            (wmRezip sys r s).1.trace.filter Call.isRun)) := by
  refine ⟨?_, ?_, ?_⟩
  · intro pngPath tdir f zw s
    refine ⟨rezipEntry_runs_all sys pngPath tdir f zw s, ?_⟩
    intro hd hm h
    have he : rezipEntry sys pngPath tdir f zw s =
        ((rezipEntry sys pngPath tdir f zw s).1, (rezipEntry sys pngPath tdir f zw s).2.1, none) :=
      Prod.ext rfl (Prod.ext rfl h)
    rw [rezipEntry_runs he]
    simp [hd, hm, compositorCall]
  · intro zipPath pngPath tdir zw s pre post f ho hpre
    have ho2 : (sys.openReader zipPath s.world).2.2 = none := by rw [ho]
    have ho1 : (sys.openReader zipPath s.world).2.1 = pre ++ f :: post := by rw [ho]
    refine ⟨?_, rezipLoop_snoc sys pngPath tdir pre f zw _ hpre, ?_⟩
    · rw [rezipLoop_runs sys pngPath tdir pre zw _ _ _ (Prod.ext rfl (Prod.ext rfl hpre)),
        rezipStart_runs]
      rfl
    · rw [rezip_eq_loop ho2, ho1, rezipLoop_after sys pngPath tdir pre post f zw _ hpre,
        rezipLoop_snoc sys pngPath tdir pre f zw _ hpre]
  · intro debug r s h
    obtain ⟨png, rest, hf, hpath, hw⟩ := wmPng_saved sys r s h
    refine ⟨png, rest, hf, hw, ?_, wmZip_runs sys r s, ?_⟩
    · unfold wmRezip
      rw [hpath]
    · intro hp ht hz
      rw [watermark_eq]
      simp only [hp, ht, h, hz, ne_eq, not_true_eq_false, if_false, Bool.true_eq_false]
      split_ifs <;> exact cleanup_runs sys debug _ _

theorem rezip_compositor_calls_witness :
    (rezipEntry demoSys "/w/w.png".toList "/w".toList
      ⟨"bad.png".toList, false, none, "corrupt".toList, none⟩ ZipWriter.new
      toyStart).1.trace.filter Call.isRun =
      [Call.run "/usr/local/bin/ffmpeg".toList
        ["-i".toList, "/w/bad.png".toList, "-i".toList, "/w/w.png".toList,
         "-filter_complex".toList, "overlay=main_w-overlay_w-10:10".toList,
         "-codec:a".toList, "copy".toList, "/w/out/bad.png".toList]
        (some "exit status 1")] ∧
    (rezipLoop demoSys "/w/w.png".toList "/w".toList
      [⟨"a.png".toList, false, none, "AAA".toList, none⟩] ZipWriter.new
      (rezipStart demoSys "/w/in.zip".toList "/w".toList
        (demoState "Z".toList))).1.trace.filter Call.isRun =
      [Call.run "/usr/local/bin/ffmpeg".toList
        ["-i".toList, "/w/a.png".toList, "-i".toList, "/w/w.png".toList,
         "-filter_complex".toList, "overlay=main_w-overlay_w-10:10".toList,
         "-codec:a".toList, "copy".toList, "/w/out/a.png".toList] none] ∧
    (watermark demoSys false (demoRequest "photos.zip".toList "Z".toList)
      toyStart).1.trace.filter Call.isRun =
      [Call.run "/usr/local/bin/ffmpeg".toList
        ["-i".toList, "/tmp/watermark_1/a.png".toList, "-i".toList,
         "/tmp/watermark_1/w.png".toList, "-filter_complex".toList,
         "overlay=main_w-overlay_w-10:10".toList, "-codec:a".toList, "copy".toList,
         "/tmp/watermark_1/out/a.png".toList] none] :=
  ⟨(((rezip_compositor_calls demoSys).1 "/w/w.png".toList "/w".toList
      ⟨"bad.png".toList, false, none, "corrupt".toList, none⟩ ZipWriter.new toyStart).1).trans
      (by decide),
   (((rezip_compositor_calls demoSys).2.1 "/w/in.zip".toList "/w/w.png".toList "/w".toList
      ZipWriter.new (demoState "Z".toList)
      [⟨"a.png".toList, false, none, "AAA".toList, none⟩]
      [⟨"notes.txt".toList, false, none, "hello".toList, none⟩]
      ⟨"d/".toList, true, none, [], none⟩ (by decide) (by decide)).1).trans (by decide),
   (Exists.elim ((rezip_compositor_calls demoSys).2.2 false
      (demoRequest "photos.zip".toList "Z".toList) toyStart (by decide))
      (fun _ h => Exists.elim h (fun _ h2 =>
        h2.2.2.2.2 (by decide) (by decide) (by decide)))).trans (by decide)⟩

/-- C2, as stated, fails, in each of these archives for an entry with a media
name: a directory entry `d.png` (the run succeeds without any subprocess
call); `b.jpg` after `bad.png`, on which the compositor fails (one call, for
`bad.png`, and the run stops); `c.png` that cannot be opened; `c.png` whose
header cannot be created; `c.png` whose bytes cannot be read to the end;
`c.png` that cannot be written to the working directory (no subprocess call
in the last four). -/
theorem rezip_compositor_not_for_every_media_name :
    (isMediaFile "d.png".toList = true ∧
     (rezip demoSys "/w/in.zip".toList "/w/w.png".toList "/w".toList ZipWriter.new
       (demoState "D".toList)).2.2 = none ∧
     (rezip demoSys "/w/in.zip".toList "/w/w.png".toList "/w".toList ZipWriter.new
       (demoState "D".toList)).1.trace.filter Call.isRun = []) ∧
    (isMediaFile "b.jpg".toList = true ∧
     (rezip demoSys "/w/in.zip".toList "/w/w.png".toList "/w".toList ZipWriter.new
       (demoState "B".toList)).2.2 = some "exit status 1" ∧
     (rezip demoSys "/w/in.zip".toList "/w/w.png".toList "/w".toList ZipWriter.new
       (demoState "B".toList)).1.trace.filter Call.isRun =
       [Call.run "/usr/local/bin/ffmpeg".toList
         ["-i".toList, "/w/bad.png".toList, "-i".toList, "/w/w.png".toList,
          "-filter_complex".toList, "overlay=main_w-overlay_w-10:10".toList,
          "-codec:a".toList, "copy".toList, "/w/out/bad.png".toList]
         (some "exit status 1")]) ∧
    (isMediaFile "c.png".toList = true ∧
     (rezip (fixedSys Faults.none
         [⟨"c.png".toList, false, some "zip: unsupported compression algorithm", [], none⟩])
       "/w/in.zip".toList "/w/w.png".toList "/w".toList ZipWriter.new
       (demoState "Z".toList)).1.trace.filter Call.isRun = [] ∧
     (rezip (headerFailSys [⟨"c.png".toList, false, none, "CCC".toList, none⟩])
       "/w/in.zip".toList "/w/w.png".toList "/w".toList ZipWriter.new
       (demoState "Z".toList)).1.trace.filter Call.isRun = [] ∧
     (rezip (fixedSys Faults.none
         [⟨"c.png".toList, false, none, "CC".toList, some "zip: checksum error"⟩])
       "/w/in.zip".toList "/w/w.png".toList "/w".toList ZipWriter.new
       (demoState "Z".toList)).1.trace.filter Call.isRun = [] ∧
     (rezip (fixedSys ⟨false, false, true⟩ [⟨"c.png".toList, false, none, "CCC".toList, none⟩])
       "/w/in.zip".toList "/w/w.png".toList "/w".toList ZipWriter.new
       (demoState "Z".toList)).1.trace.filter Call.isRun = []) := by
  decide

/-! ## C9: directory entries -/

theorem createDirs_ok_iff (sys : Sys σ) (dir subDir : GoString) (s : St σ) :
    (createDirs sys dir subDir s).2 = none ↔
      (sys.mkdirAll (sys.join [dir, subDir]) 0o755 s.world).2 = none ∧
      (sys.mkdirAll (sys.join [dir, "out".toList, subDir]) 0o755
        (sys.mkdirAll (sys.join [dir, subDir]) 0o755 s.world).1).2 = none := by
  unfold createDirs
  simp only [createDirsLoop, mkdirAll]
  cases h1 : (sys.mkdirAll (sys.join [dir, subDir]) 0o755 s.world).2 with
  | some e => simp
  | none =>
    simp only [true_and]
    cases h2 : (sys.mkdirAll (sys.join [dir, "out".toList, subDir]) 0o755
        (sys.mkdirAll (sys.join [dir, subDir]) 0o755 s.world).1).2 with
    | some e => simp
    | none => simp

theorem rezipEntry_dir_ok_iff (sys : Sys σ) (pngPath tdir : GoString) (f : ZipFile)
    (zw : ZipWriter) (s : St σ) (hd : f.isDir = true) :
    (rezipEntry sys pngPath tdir f zw s).2.2 = none ↔
      f.openErr = none ∧ sys.createHeader zw ⟨f.name, zipStore⟩ = none ∧
      (sys.mkdirAll (sys.join [tdir, f.name]) 0o755 s.world).2 = none ∧
      (sys.mkdirAll (sys.join [tdir, "out".toList, f.name]) 0o755
        (sys.mkdirAll (sys.join [tdir, f.name]) 0o755 s.world).1).2 = none := by
  cases he : f.openErr with
  | some e => simp [rezipEntry_open_err he]
  | none =>
    cases hc : sys.createHeader zw ⟨f.name, zipStore⟩ with
    | some e => simp [rezipEntry_header_err he hc]
    | none =>
      rw [rezipEntry_dir he hc hd]
      simp only [true_and]
      exact createDirs_ok_iff sys tdir f.name s

/-- C9 (amended): (a) the pass of the loop of `rezip` for a directory entry,
from any state and whatever its outcome, makes no subprocess call; it adds to
the new archive an entry with the name of `f`, the store method and an empty
payload exactly when opening `f` and creating its header succeed, and adds
nothing otherwise; it returns no error exactly when, besides, `MkdirAll` of
`<tdir>/<name>` and then `MkdirAll` of `<tdir>/out/<name>` succeed, and then
these two are the calls it made.  (b) When the archive opened as `pre`, `f`,
`post`, `f` is a directory and the entries of `pre` were processed without
error, the pass for `f` starts in the state the loop over `pre` left, and if
opening `f` and creating its header succeed, the archive `rezip` returns has,
at the position of `f`, the entry with the name of `f`, the store method and
an empty payload, whatever happens afterwards. -/
theorem rezip_directory_entry (sys : Sys σ) :
    (∀ (pngPath tdir : GoString) (f : ZipFile) (zw : ZipWriter) (s : St σ),
      f.isDir = true →
      (rezipEntry sys pngPath tdir f zw s).1.trace.filter Call.isRun =
        s.trace.filter Call.isRun ∧
      (rezipEntry sys pngPath tdir f zw s).2.1.entries =
        (if f.openErr = none ∧ sys.createHeader zw ⟨f.name, zipStore⟩ = none then
          zw.entries ++ [⟨⟨f.name, zipStore⟩, []⟩]
        else zw.entries) ∧
      ((rezipEntry sys pngPath tdir f zw s).2.2 = none ↔
        f.openErr = none ∧ sys.createHeader zw ⟨f.name, zipStore⟩ = none ∧
        (sys.mkdirAll (sys.join [tdir, f.name]) 0o755 s.world).2 = none ∧
        (sys.mkdirAll (sys.join [tdir, "out".toList, f.name]) 0o755
          (sys.mkdirAll (sys.join [tdir, f.name]) 0o755 s.world).1).2 = none) ∧
      ((rezipEntry sys pngPath tdir f zw s).2.2 = none →
        (rezipEntry sys pngPath tdir f zw s).1.trace = s.trace ++
          [Call.mkdirAll (sys.join [tdir, f.name]) 0o755 none,
           Call.mkdirAll (sys.join [tdir, "out".toList, f.name]) 0o755 none])) ∧
    (∀ (zipPath pngPath tdir : GoString) (zw : ZipWriter) (s : St σ)
        (pre post : List ZipFile) (f : ZipFile),
      f.isDir = true →
      (sys.openReader zipPath s.world).2 = (pre ++ f :: post, none) →
      (rezipLoop sys pngPath tdir pre zw (rezipStart sys zipPath tdir s)).2.2 = none →
      rezipLoop sys pngPath tdir (pre ++ [f]) zw (rezipStart sys zipPath tdir s) =
        rezipEntry sys pngPath tdir f
          (rezipLoop sys pngPath tdir pre zw (rezipStart sys zipPath tdir s)).2.1
          (rezipLoop sys pngPath tdir pre zw (rezipStart sys zipPath tdir s)).1 ∧
      (f.openErr = none →
        sys.createHeader
          (rezipLoop sys pngPath tdir pre zw (rezipStart sys zipPath tdir s)).2.1
          ⟨f.name, zipStore⟩ = none →
        (rezip sys zipPath pngPath tdir zw s).2.1.entries[zw.entries.length + pre.length]? =
          some ⟨⟨f.name, zipStore⟩, []⟩)) := by
  constructor
  · intro pngPath tdir f zw s hd
    refine ⟨?_, rezipEntry_dir_entries sys pngPath tdir f zw s hd,
      rezipEntry_dir_ok_iff sys pngPath tdir f zw s hd, ?_⟩
    · rw [rezipEntry_runs_all]
      simp [hd]
    · intro h
      have he : rezipEntry sys pngPath tdir f zw s =
          ((rezipEntry sys pngPath tdir f zw s).1, (rezipEntry sys pngPath tdir f zw s).2.1,
            none) :=
        Prod.ext rfl (Prod.ext rfl h)
      obtain ⟨_, _, hx | hx | hx⟩ := rezipEntry_none he
      · exact createDirs_none hx.2.2
      · rw [hd] at hx
        simp at hx
      · rw [hd] at hx
        simp at hx
  · intro zipPath pngPath tdir zw s pre post f hd ho hpre
    have ho2 : (sys.openReader zipPath s.world).2.2 = none := by rw [ho]
    have ho1 : (sys.openReader zipPath s.world).2.1 = pre ++ f :: post := by rw [ho]
    refine ⟨rezipLoop_snoc sys pngPath tdir pre f zw _ hpre, ?_⟩
    intro he hc
    rw [rezip_eq_loop ho2, ho1, rezipLoop_after sys pngPath tdir pre post f zw _ hpre]
    obtain ⟨l1, hl1, hn1⟩ := rezipLoop_entries sys pngPath tdir pre zw _ _ _
      (Prod.ext rfl (Prod.ext rfl hpre))
    have hB := rezipEntry_dir_entries sys pngPath tdir f
      (rezipLoop sys pngPath tdir pre zw (rezipStart sys zipPath tdir s)).2.1
      (rezipLoop sys pngPath tdir pre zw (rezipStart sys zipPath tdir s)).1 hd
    rw [if_pos ⟨he, hc⟩, hl1] at hB
    have hlen : (zw.entries ++ l1).length = zw.entries.length + pre.length := by
      rw [List.length_append, hn1]
    split_ifs
    · obtain ⟨l2, hl2⟩ := rezipLoop_entries_any sys pngPath tdir post
        (rezipEntry sys pngPath tdir f
          (rezipLoop sys pngPath tdir pre zw (rezipStart sys zipPath tdir s)).2.1
          (rezipLoop sys pngPath tdir pre zw (rezipStart sys zipPath tdir s)).1).2.1
        (rezipEntry sys pngPath tdir f
          (rezipLoop sys pngPath tdir pre zw (rezipStart sys zipPath tdir s)).2.1
          (rezipLoop sys pngPath tdir pre zw (rezipStart sys zipPath tdir s)).1).1
      rw [hl2, hB, List.append_assoc (zw.entries ++ l1),
        List.getElem?_append_right (by rw [hlen]), hlen, Nat.sub_self]
      simp
    · rw [hB, List.getElem?_append_right (by rw [hlen]), hlen, Nat.sub_self]
      simp

theorem rezip_directory_entry_witness :
    (rezipEntry demoSys "/w/w.png".toList "/w".toList ⟨"d/".toList, true, none, [], none⟩
      ZipWriter.new toyStart).1.trace =
      [Call.mkdirAll "/w/d/".toList 0o755 none, Call.mkdirAll "/w/out/d/".toList 0o755 none] ∧
    (rezip demoSys "/w/in.zip".toList "/w/w.png".toList "/w".toList ZipWriter.new
      (demoState "Z".toList)).2.1.entries[1]? = some ⟨⟨"d/".toList, zipStore⟩, []⟩ ∧
    (rezip (fixedSys Faults.none
        [⟨"d/".toList, true, none, [], none⟩,
         ⟨"bad.png".toList, false, none, "corrupt".toList, none⟩])
      "/w/in.zip".toList "/w/w.png".toList "/w".toList ZipWriter.new
      (demoState "Z".toList)).2.2 = some "exit status 1" ∧
    (rezip (fixedSys Faults.none
        [⟨"d/".toList, true, none, [], none⟩,
         ⟨"bad.png".toList, false, none, "corrupt".toList, none⟩])
      "/w/in.zip".toList "/w/w.png".toList "/w".toList ZipWriter.new
      (demoState "Z".toList)).2.1.entries[0]? = some ⟨⟨"d/".toList, zipStore⟩, []⟩ :=
  ⟨((rezip_directory_entry demoSys).1 "/w/w.png".toList "/w".toList
      ⟨"d/".toList, true, none, [], none⟩ ZipWriter.new toyStart rfl).2.2.2 (by decide),
   (rezip_directory_entry demoSys).2 "/w/in.zip".toList "/w/w.png".toList "/w".toList
      ZipWriter.new (demoState "Z".toList)
      [⟨"a.png".toList, false, none, "AAA".toList, none⟩]
      [⟨"notes.txt".toList, false, none, "hello".toList, none⟩]
      ⟨"d/".toList, true, none, [], none⟩ rfl (by decide) (by decide) |>.2 rfl rfl,
   by decide,
   (rezip_directory_entry (fixedSys Faults.none
        [⟨"d/".toList, true, none, [], none⟩,
         ⟨"bad.png".toList, false, none, "corrupt".toList, none⟩])).2
      "/w/in.zip".toList "/w/w.png".toList "/w".toList ZipWriter.new (demoState "Z".toList)
      [] [⟨"bad.png".toList, false, none, "corrupt".toList, none⟩]
      ⟨"d/".toList, true, none, [], none⟩ rfl (by decide) (by decide) |>.2 rfl rfl⟩

/-- C9, as stated, fails for the directory entry `d/` in each of these runs:
after `bad.png`, on which the compositor fails, the loop never reaches `d/`
(no entry `d/`, no `MkdirAll` for it); when `d/` cannot be opened, and when
its header cannot be created, no entry is created and no `MkdirAll` is
called; when `MkdirAll` fails, the entry is created but `MkdirAll` of
`/w/d/` fails and `MkdirAll` of `/w/out/d/` is never called. -/
theorem rezip_directory_entry_not_always :
    ((demoSys.openReader "/w/in.zip".toList (demoState "B".toList).world).2.1 =
      [⟨"bad.png".toList, false, none, "corrupt".toList, none⟩,
       ⟨"d/".toList, true, none, [], none⟩,
       ⟨"b.jpg".toList, false, none, "BBB".toList, none⟩] ∧
     (rezip demoSys "/w/in.zip".toList "/w/w.png".toList "/w".toList ZipWriter.new
       (demoState "B".toList)).2.2 = some "exit status 1" ∧
     (rezip demoSys "/w/in.zip".toList "/w/w.png".toList "/w".toList ZipWriter.new
       (demoState "B".toList)).2.1.entries.map (fun e => e.hdr.name) = ["bad.png".toList] ∧
     (rezip demoSys "/w/in.zip".toList "/w/w.png".toList "/w".toList ZipWriter.new
       (demoState "B".toList)).1.trace =
       [Call.openReader "/w/in.zip".toList none,
        Call.mkdirAll "/w/out".toList 0o755 none,
        Call.writeFile "/w/bad.png".toList "corrupt".toList 0o644 none,
        Call.run "/usr/local/bin/ffmpeg".toList
          ["-i".toList, "/w/bad.png".toList, "-i".toList, "/w/w.png".toList,
           "-filter_complex".toList, "overlay=main_w-overlay_w-10:10".toList,
           "-codec:a".toList, "copy".toList, "/w/out/bad.png".toList]
          (some "exit status 1")]) ∧
    ((rezip (fixedSys Faults.none
         [⟨"d/".toList, true, some "zip: not a valid zip file", [], none⟩])
       "/w/in.zip".toList "/w/w.png".toList "/w".toList ZipWriter.new
       (demoState "Z".toList)).2.1.entries = [] ∧
     (rezip (fixedSys Faults.none
         [⟨"d/".toList, true, some "zip: not a valid zip file", [], none⟩])
       "/w/in.zip".toList "/w/w.png".toList "/w".toList ZipWriter.new
       (demoState "Z".toList)).1.trace =
       [Call.openReader "/w/in.zip".toList none, Call.mkdirAll "/w/out".toList 0o755 none]) ∧
    ((rezip (headerFailSys [⟨"d/".toList, true, none, [], none⟩])
       "/w/in.zip".toList "/w/w.png".toList "/w".toList ZipWriter.new
       (demoState "Z".toList)).2.1.entries = [] ∧
     (rezip (headerFailSys [⟨"d/".toList, true, none, [], none⟩])
       "/w/in.zip".toList "/w/w.png".toList "/w".toList ZipWriter.new
       (demoState "Z".toList)).1.trace =
       [Call.openReader "/w/in.zip".toList none, Call.mkdirAll "/w/out".toList 0o755 none]) ∧
    ((rezip (fixedSys ⟨false, true, false⟩ [⟨"d/".toList, true, none, [], none⟩])
       "/w/in.zip".toList "/w/w.png".toList "/w".toList ZipWriter.new
       (demoState "Z".toList)).2.1.entries = [⟨⟨"d/".toList, zipStore⟩, []⟩] ∧
     (rezip (fixedSys ⟨false, true, false⟩ [⟨"d/".toList, true, none, [], none⟩])
       "/w/in.zip".toList "/w/w.png".toList "/w".toList ZipWriter.new
       (demoState "Z".toList)).2.2 = some "mkdir: permission denied" ∧
     (rezip (fixedSys ⟨false, true, false⟩ [⟨"d/".toList, true, none, [], none⟩])
       "/w/in.zip".toList "/w/w.png".toList "/w".toList ZipWriter.new
       (demoState "Z".toList)).1.trace =
       [Call.openReader "/w/in.zip".toList none,
        Call.mkdirAll "/w/out".toList 0o755 (some "mkdir: permission denied"),
        Call.mkdirAll "/w/d/".toList 0o755 (some "mkdir: permission denied")]) := by
  decide

/-! ## C7: media names -/

theorem rezipEntry_other_state (sys : Sys σ) (pngPath tdir : GoString) (f : ZipFile)
    (zw : ZipWriter) (s : St σ) (hd : f.isDir = false) (hm : isMediaFile f.name = false) :
    (rezipEntry sys pngPath tdir f zw s).1 = s := by
  cases he : f.openErr with
  | some e => simp [rezipEntry_open_err he]
  | none =>
    cases hc : sys.createHeader zw ⟨f.name, zipStore⟩ with
    | some e => simp [rezipEntry_header_err he hc]
    | none => simp [rezipEntry_other he hc hd hm]

theorem rezipEntry_other_copied (sys : Sys σ) (pngPath tdir : GoString) (f : ZipFile)
    (zw : ZipWriter) (s : St σ) (hd : f.isDir = false) (hm : isMediaFile f.name = false)
    (he : f.openErr = none) (hc : sys.createHeader zw ⟨f.name, zipStore⟩ = none)
    (hw : f.data = [] ∨
      sys.write ⟨zw.entries, some ⟨⟨f.name, zipStore⟩, []⟩⟩ f.data = none) :
    (rezipEntry sys pngPath tdir f zw s).2.1.entries =
      zw.entries ++ [⟨⟨f.name, zipStore⟩, f.data⟩] := by
  rw [rezipEntry_other he hc hd hm]
  simp only [ioCopy]
  by_cases hn : f.data = []
  · simp [hn, ZipWriter.entries]
  · rcases hw with hw | hw
    · exact absurd hw hn
    · have hz : zipWrite sys ⟨zw.entries, some ⟨⟨f.name, zipStore⟩, []⟩⟩ f.data =
          (⟨zw.entries, some ⟨⟨f.name, zipStore⟩, f.data⟩⟩, none) := by
        simp [zipWrite, hw, ZipWriter.appendLast]
      simp only [hn, if_false, hz]
      simp [ZipWriter.entries]

/-- C7 (amended): `isMediaFile(name)` is true exactly when `name` ends in one
of the suffixes `.bmp`, `.jpg`, `.png`, `.mp4` as written; a name that ends in
`.PNG` or in `.jpeg` is not a media name.  For an entry whose name is not a
media name, in a pass of the loop of `rezip` from any state: if the entry is
not a directory, the pass makes no call to the environment, and whenever
opening the entry, creating its header and writing its bytes to the new
archive succeed the new entry holds exactly the source bytes (so also
whenever the pass returns no error); if the entry is a directory, the new
entry, if one is created, has an empty payload: nothing is copied. -/
theorem isMediaFile_iff_suffix (sys : Sys σ) (name : GoString) :
    (isMediaFile name = true ↔
      (".bmp".toList <:+ name ∨ ".jpg".toList <:+ name ∨
        ".png".toList <:+ name ∨ ".mp4".toList <:+ name)) ∧
    (∀ base : GoString, isMediaFile (base ++ ".PNG".toList) = false) ∧
    (∀ base : GoString, isMediaFile (base ++ ".jpeg".toList) = false) ∧
    (isMediaFile name = false →
      ∀ (pngPath tdir : GoString) (f : ZipFile) (zw : ZipWriter) (s : St σ),
        f.name = name →
        (f.isDir = false →
          (rezipEntry sys pngPath tdir f zw s).1 = s ∧
          (f.openErr = none → sys.createHeader zw ⟨name, zipStore⟩ = none →
            (f.data = [] ∨
              sys.write ⟨zw.entries, some ⟨⟨name, zipStore⟩, []⟩⟩ f.data = none) →
            (rezipEntry sys pngPath tdir f zw s).2.1.entries =
              zw.entries ++ [⟨⟨name, zipStore⟩, f.data⟩]) ∧
          ((rezipEntry sys pngPath tdir f zw s).2.2 = none →
            (rezipEntry sys pngPath tdir f zw s).2.1.entries =
              zw.entries ++ [⟨⟨name, zipStore⟩, f.data⟩])) ∧
        (f.isDir = true →
          (rezipEntry sys pngPath tdir f zw s).2.1.entries =
            if f.openErr = none ∧ sys.createHeader zw ⟨name, zipStore⟩ = none then
              zw.entries ++ [⟨⟨name, zipStore⟩, []⟩]
            else zw.entries)) := by
  refine ⟨?_, ?_, ?_, ?_⟩
  · unfold isMediaFile
    rw [isMediaFileLoop_iff]
    simp [mediaSuffixes]
  · intro base
    rw [isMediaFile_append base _ (by decide)]
    decide
  · intro base
    rw [isMediaFile_append base _ (by decide)]
    decide
  · intro hm pngPath tdir f zw s hn
    subst hn
    refine ⟨fun hd => ⟨rezipEntry_other_state sys pngPath tdir f zw s hd hm, ?_, ?_⟩, ?_⟩
    · intro he hc hw
      exact rezipEntry_other_copied sys pngPath tdir f zw s hd hm he hc hw
    · intro h
      have he : rezipEntry sys pngPath tdir f zw s =
          ((rezipEntry sys pngPath tdir f zw s).1, (rezipEntry sys pngPath tdir f zw s).2.1,
            none) :=
        Prod.ext rfl (Prod.ext rfl h)
      obtain ⟨_, _, hx | hx | hx⟩ := rezipEntry_none he
      · rw [hd] at hx
        simp at hx
      · rw [hm] at hx
        simp at hx
      · obtain ⟨_, _, _, _, hz⟩ := hx
        rw [hz]
        simp [ZipWriter.entries]
    · intro hd
      exact rezipEntry_dir_entries sys pngPath tdir f zw s hd

theorem isMediaFile_iff_suffix_witness :
    isMediaFile "a.png".toList = true ∧
    isMediaFile "scan.PNG".toList = false ∧
    isMediaFile "photo.jpeg".toList = false ∧
    (rezipEntry demoSys "/w/w.png".toList "/w".toList
      ⟨"scan.PNG".toList, false, none, "pixels".toList, none⟩ ZipWriter.new toyStart).2.1.entries =
      [⟨⟨"scan.PNG".toList, zipStore⟩, "pixels".toList⟩] ∧
    (rezipEntry demoSys "/w/w.png".toList "/w".toList
      ⟨"scan.PNG".toList, false, none, "pixels".toList, some "zip: checksum error"⟩
      ZipWriter.new toyStart).2.1.entries =
      [⟨⟨"scan.PNG".toList, zipStore⟩, "pixels".toList⟩] :=
  ⟨(isMediaFile_iff_suffix demoSys "a.png".toList).1.2 (Or.inr (Or.inr (Or.inl (by decide)))),
   (isMediaFile_iff_suffix demoSys []).2.1 "scan".toList,
   (isMediaFile_iff_suffix demoSys []).2.2.1 "photo".toList,
   (((isMediaFile_iff_suffix demoSys "scan.PNG".toList).2.2.2 (by decide)
      "/w/w.png".toList "/w".toList ⟨"scan.PNG".toList, false, none, "pixels".toList, none⟩
      ZipWriter.new toyStart rfl).1 rfl).2.2 (by decide),
   (((isMediaFile_iff_suffix demoSys "scan.PNG".toList).2.2.2 (by decide)
      "/w/w.png".toList "/w".toList
      ⟨"scan.PNG".toList, false, none, "pixels".toList, some "zip: checksum error"⟩
      ZipWriter.new toyStart rfl).1 rfl).2.1 rfl rfl (Or.inr rfl)⟩

/-- C7, as stated, fails for the name `scan.PNG`, which is not a media name,
in each of these runs: when the entry is a directory (with bytes `pixels`),
`rezip` succeeds and the new entry is empty; after `bad.png`, on which the
compositor fails, the entry is never reached; when the entry cannot be
opened, and when its header cannot be created, there is no new entry; when
the write to the new archive fails, the new entry is empty. -/
theorem rezip_non_media_not_always_copied :
    isMediaFile "scan.PNG".toList = false ∧
    ((rezip (fixedSys Faults.none [⟨"scan.PNG".toList, true, none, "pixels".toList, none⟩])
       "/w/in.zip".toList "/w/w.png".toList "/w".toList ZipWriter.new
       (demoState "Z".toList)).2.2 = none ∧
     (rezip (fixedSys Faults.none [⟨"scan.PNG".toList, true, none, "pixels".toList, none⟩])
       "/w/in.zip".toList "/w/w.png".toList "/w".toList ZipWriter.new
       (demoState "Z".toList)).2.1.entries = [⟨⟨"scan.PNG".toList, zipStore⟩, []⟩]) ∧
    ((rezip (fixedSys Faults.none
         [⟨"bad.png".toList, false, none, "corrupt".toList, none⟩,
          ⟨"scan.PNG".toList, false, none, "pixels".toList, none⟩])
       "/w/in.zip".toList "/w/w.png".toList "/w".toList ZipWriter.new
       (demoState "Z".toList)).2.1.entries = [⟨⟨"bad.png".toList, zipStore⟩, []⟩]) ∧
    ((rezip (fixedSys Faults.none
         [⟨"scan.PNG".toList, false, some "zip: unsupported compression algorithm",
           "pixels".toList, none⟩])
       "/w/in.zip".toList "/w/w.png".toList "/w".toList ZipWriter.new
       (demoState "Z".toList)).2.1.entries = []) ∧
    ((rezip (headerFailSys [⟨"scan.PNG".toList, false, none, "pixels".toList, none⟩])
       "/w/in.zip".toList "/w/w.png".toList "/w".toList ZipWriter.new
       (demoState "Z".toList)).2.1.entries = []) ∧
    ((rezip (writeFailSys [⟨"scan.PNG".toList, false, none, "pixels".toList, none⟩])
       "/w/in.zip".toList "/w/w.png".toList "/w".toList ZipWriter.new
       (demoState "Z".toList)).2.1.entries = [⟨⟨"scan.PNG".toList, zipStore⟩, []⟩]) := by
  decide

end Watermarker
